import Mathlib

/-!
Verification development for the OVD monitoring pipeline: a shallow embedding
of the rule evaluation / incident lifecycle engine (src/core/rules/rule_engine.py),
the ROI model (src/models/rule.py), the evidence ring buffer
(src/core/record/ring_buffer.py) and the notification dispatcher
(src/core/notify/notification_manager.py), together with theorems settling the
frozen specification claims.

Python floats are modelled as rationals, Python ints as Lean integers.
Python dicts (insertion ordered, with in-place overwrite on an existing key)
are modelled as association lists with the operations dictGet / dictSet /
dictPop below.
-/

/-- Python substring test: the expression a in b for strings. An empty needle
is contained in every string, as in Python. -/
def pyIn (needle haystack : String) : Bool :=
  decide (needle.data <:+: haystack.data)

/-- Python int(x) applied to a float: truncation toward zero, modelled on
rationals via truncating integer division of numerator by denominator. -/
def pyInt (q : ℚ) : Int :=
  q.num.tdiv (q.den : Int)

section PyDict

variable {K V : Type} [DecidableEq K]

/-- Lookup in a Python dict modelled as an association list (first match;
keys are unique whenever the list is built with dictSet). -/
def dictGet (d : List (K × V)) (k : K) : Option V :=
  (d.find? (fun e => decide (e.1 = k))).map (fun e => e.2)

/-- Python dict assignment d[k] = v: overwrite in place when the key exists
(preserving its insertion position), otherwise append a new entry. -/
def dictSet (d : List (K × V)) (k : K) (v : V) : List (K × V) :=
  if d.any (fun e => decide (e.1 = k)) then
    d.map (fun e => if e.1 = k then (k, v) else e)
  else
    d ++ [(k, v)]

/-- Python d.pop(k, None): remove the entry with key k when present. -/
def dictPop (d : List (K × V)) (k : K) : List (K × V) :=
  d.filter (fun e => decide (e.1 ≠ k))

end PyDict

/-! ## Data model (src/models/detection.py and src/models/rule.py) -/

/-- Detection dataclass from src/models/detection.py. The bbox is
(x1, y1, x2, y2). -/
structure Detection where
  bbox : ℚ × ℚ × ℚ × ℚ
  confidence : ℚ
  class_name : String
  prompt_used : String
  frame_id : Int := 0
deriving DecidableEq, Repr

/-- Track dataclass from src/models/detection.py (fields consumed by the
rule engine; the tracker-internal update methods are out of scope). -/
structure Track where
  track_id : Int
  bbox : ℚ × ℚ × ℚ × ℚ
  confidence : ℚ
  class_name : String
  first_seen_frame : Int
  last_seen_frame : Int
  first_seen_time : ℚ
  last_seen_time : ℚ
  state : String := "tentative"
  hit_streak : Int := 0
  time_since_update : Int := 0
  detection_history : List Detection := []
deriving DecidableEq, Repr

/-- ROI dataclass from src/models/rule.py. -/
structure ROI where
  enabled : Bool
  roi_type : String
  points : List (ℚ × ℚ)
deriving DecidableEq, Repr

/-- One iteration of the ray-casting loop in ROI._point_in_polygon.
The loop state is (current p1 vertex, xinters, inside). The xinters slot
models the Python local variable of the same name; as in the source it is
only ever read in an iteration that has just assigned it (the guard
p1y = p2y makes the y-window test false, so the read of a stale xinters is
unreachable), and it starts at an arbitrary value (0). -/
def pipStep (x y : ℚ) (st : (ℚ × ℚ) × ℚ × Bool) (p2 : ℚ × ℚ) : (ℚ × ℚ) × ℚ × Bool :=
  let p1x := st.1.1
  let p1y := st.1.2
  let xinters := st.2.1
  let inside := st.2.2
  let p2x := p2.1
  let p2y := p2.2
  if y > min p1y p2y ∧ y ≤ max p1y p2y ∧ x ≤ max p1x p2x then
    let xinters2 := if p1y ≠ p2y then (y - p1y) * (p2x - p1x) / (p2y - p1y) + p1x else xinters
    let inside2 := if p1x = p2x ∨ x ≤ xinters2 then !inside else inside
    ((p2x, p2y), xinters2, inside2)
  else
    ((p2x, p2y), xinters, inside)

/-- ROI._point_in_polygon: ray casting over the vertex list. The Python loop
visits p2 = polygon[i % n] for i in range(n + 1), i.e. every vertex in order
followed by the first vertex again, with p1 starting at polygon[0].
Python raises IndexError on an empty polygon; we return false there. -/
def point_in_polygon (point : ℚ × ℚ) (polygon : List (ℚ × ℚ)) : Bool :=
  match polygon with
  | [] => false
  | p0 :: _ => (((polygon ++ [p0]).foldl (pipStep point.1 point.2) (p0, 0, false)).2).2

/-- ROI.contains_point from src/models/rule.py. A disabled ROI contains
everything; a rectangle is tested with inclusive bounds against its two
corner points; a polygon with ray casting; any other roi_type yields true.
Python raises IndexError when a rectangle has fewer than two points; we
return false there. -/
def ROI.contains_point (roi : ROI) (point : ℚ × ℚ) : Bool :=
  if !roi.enabled then true
  else if roi.roi_type = "polygon" then point_in_polygon point roi.points
  else if roi.roi_type = "rectangle" then
    match roi.points with
    | (x1, y1) :: (x2, y2) :: _ =>
      decide (x1 ≤ point.1 ∧ point.1 ≤ x2 ∧ y1 ≤ point.2 ∧ point.2 ≤ y2)
    | _ => false
  else true

/-- ROI.contains_bbox: containment of the bbox centroid. -/
def ROI.contains_bbox (roi : ROI) (bbox : ℚ × ℚ × ℚ × ℚ) : Bool :=
  let x1 := bbox.1
  let y1 := bbox.2.1
  let x2 := bbox.2.2.1
  let y2 := bbox.2.2.2
  roi.contains_point ((x1 + x2) / 2, (y1 + y2) / 2)

/-- RuleConditions dataclass from src/models/rule.py. -/
structure RuleConditions where
  dwell_seconds : ℚ
  min_confidence : ℚ
  min_frames : Int := 3
  require_helmetless : Bool := false
deriving DecidableEq, Repr

/-- RuleActions dataclass from src/models/rule.py. -/
structure RuleActions where
  cooldown_seconds : ℚ
  record_pre_seconds : ℚ
  record_post_seconds : ℚ
  notify_channels : List String
deriving DecidableEq, Repr

/-- Rule dataclass from src/models/rule.py (the free-form metadata dict is
omitted: it is never read by the engine). -/
structure Rule where
  rule_id : String
  area_id : String
  description : String
  prompt_positive : String
  prompt_negative : Option String
  box_threshold : ℚ
  text_threshold : ℚ
  conditions : RuleConditions
  roi : Option ROI
  actions : RuleActions
deriving DecidableEq, Repr

/-- Incident dataclass from src/models/rule.py. -/
structure Incident where
  incident_id : String
  rule_id : String
  track_id : Int
  first_detected_time : ℚ
  confirmed_time : Option ℚ
  resolved_time : Option ℚ
  state : String
  snapshots : List String := []
  video_clip_path : Option String := none
  confidence_scores : List ℚ := []
  frame_ids : List Int := []
  last_notification_time : Option ℚ := none
  notification_count : Int := 0
deriving DecidableEq, Repr

/-! ## Rule engine (src/core/rules/rule_engine.py) -/

/-- RuleEngine mutable state: the incident registry (a Python dict keyed by
incident id), the per-track list of active incident ids, the per-(track id,
rule id) dwell timers and matching-frame lists, and the helmet status
history used for temporal smoothing. -/
structure RuleEngine where
  rules : List Rule
  incidents : List (String × Incident) := []
  active_incidents_by_track : List (Int × List String) := []
  track_rule_timers : List ((Int × String) × ℚ) := []
  track_rule_frames : List ((Int × String) × List Int) := []
  helmet_history : List (Int × List String) := []
deriving Repr

/-- The helmet keyword set of RuleEngine.infer_helmet_status. -/
def helmet_words : List String :=
  ["helmet", "hard hat", "safety helmet", "hardhat", "hat", "yellow helmet"]

/-- The person class-name set of RuleEngine.infer_helmet_status. -/
def person_names : List String := ["person", "worker", "human"]

/-- The _get_head_region helper: top fraction (default 40 percent) of a
person bbox. -/
def get_head_region (bbox : ℚ × ℚ × ℚ × ℚ) (head_frac : ℚ) : ℚ × ℚ × ℚ × ℚ :=
  let x1 := bbox.1
  let y1 := bbox.2.1
  let x2 := bbox.2.2.1
  let y2 := bbox.2.2.2
  (x1, y1, x2, y1 + (y2 - y1) * head_frac)

/-- The _compute_iou helper: intersection over union with the 1e-6
denominator cushion of the source. -/
def compute_iou (boxA boxB : ℚ × ℚ × ℚ × ℚ) : ℚ :=
  let xA := max boxA.1 boxB.1
  let yA := max boxA.2.1 boxB.2.1
  let xB := min boxA.2.2.1 boxB.2.2.1
  let yB := min boxA.2.2.2 boxB.2.2.2
  let inter_area := max 0 (xB - xA) * max 0 (yB - yA)
  let areaA := (boxA.2.2.1 - boxA.1) * (boxA.2.2.2 - boxA.2.1)
  let areaB := (boxB.2.2.1 - boxB.1) * (boxB.2.2.2 - boxB.2.1)
  inter_area / (areaA + areaB - inter_area + 1 / 1000000)

/-- Counter(hist).most_common(1)[0]: the (value, count) pair with the
largest count; Python Counter ties are broken by first-occurrence order,
matching this left fold over the distinct values in first-occurrence
order. Returns a dummy pair on an empty history (Python would raise). -/
def most_common_status (hist : List String) : String × Nat :=
  let keys := hist.foldl (fun acc s => if s ∈ acc then acc else acc ++ [s]) []
  let best := keys.foldl (fun best k =>
    match best with
    | none => some (k, hist.count k)
    | some b => if hist.count k > b.2 then some (k, hist.count k) else some b) none
  best.getD ("", 0)

/-- Per-person step of RuleEngine.infer_helmet_status: compute the raw
helmeted / helmetless status from the best head-region IoU against the
helmet tracks, append it to the per-track history (bounded to
smooth_frames by popping the front), then set the track state to the
majority label when its share reaches min_temporal_conf, else "unknown".
Non-person tracks and lost persons are left untouched, as in the source. -/
def infer_helmet_one (helmets : List Track) (iou_threshold head_frac : ℚ)
    (smooth_frames : Nat) (min_temporal_conf : ℚ)
    (acc : List Track × List (Int × List String)) (t : Track) :
    List Track × List (Int × List String) :=
  let history := acc.2
  if person_names.contains t.class_name.toLower then
    if t.state = "lost" then (acc.1 ++ [t], history)
    else
      let head_box := get_head_region t.bbox head_frac
      let max_iou := helmets.foldl
        (fun m h => let i := compute_iou head_box h.bbox; if i > m then i else m) 0
      let raw := if max_iou ≥ iou_threshold then "helmeted" else "helmetless"
      let hist0 := (dictGet history t.track_id).getD [] ++ [raw]
      let hist := if hist0.length > smooth_frames then hist0.drop 1 else hist0
      let history2 := dictSet history t.track_id hist
      let st :=
        if hist ≠ [] then
          let mc := most_common_status hist
          if (mc.2 : ℚ) / (hist.length : ℚ) ≥ min_temporal_conf then mc.1 else "unknown"
        else "unknown"
      (acc.1 ++ [{ t with state := st }], history2)
  else (acc.1 ++ [t], history)

/-- RuleEngine.infer_helmet_status with its default parameters. The person
and helmet candidate lists are filtered from the incoming tracks (the
helmet filter is a substring test on the lowercased class name plus a
confidence floor); person tracks get their state field updated in place,
which we model by returning the updated track list together with the new
engine state. -/
def RuleEngine.infer_helmet_status (eng : RuleEngine) (tracks : List Track)
    (iou_threshold : ℚ := 15 / 100) (head_frac : ℚ := 40 / 100)
    (min_helmet_conf : ℚ := 28 / 100) (smooth_frames : Nat := 5)
    (min_temporal_conf : ℚ := 6 / 10) : List Track × RuleEngine :=
  let helmets := tracks.filter (fun t =>
    helmet_words.any (fun w => pyIn w t.class_name.toLower) &&
      decide (t.confidence ≥ min_helmet_conf))
  let r := tracks.foldl
    (infer_helmet_one helmets iou_threshold head_frac smooth_frames min_temporal_conf)
    ([], eng.helmet_history)
  (r.1, { eng with helmet_history := r.2 })

/-- RuleEngine._track_matches_rule: the boolean per-(track, rule) match test.
The Python truthiness test on latest_detection.prompt_used makes the prompt
provenance check apply only when the provenance string is non-empty. -/
def RuleEngine.track_matches_rule (track : Track) (rule : Rule)
    (_frame_id : Int) (_timestamp : ℚ) : Bool :=
  if !(["confirmed", "helmeted", "helmetless", "unknown"].contains track.state) then false
  else
    match track.detection_history.getLast? with
    | none => false
    | some latest =>
      if latest.confidence < rule.conditions.min_confidence then false
      else if rule.conditions.require_helmetless && decide (track.state ≠ "helmetless") then false
      else if (match rule.roi with
               | some roi => roi.enabled && !roi.contains_bbox track.bbox
               | none => false) then false
      else if decide (latest.prompt_used ≠ "") && !pyIn rule.prompt_positive latest.prompt_used then false
      else true

/-- The filter predicate of RuleEngine._create_or_update_incident: a
non-resolved incident for the given (track id, rule id) pair. -/
def incident_openb (track_id : Int) (rule_id : String) (inc : Incident) : Bool :=
  decide (inc.track_id = track_id ∧ inc.rule_id = rule_id ∧ inc.state ≠ "resolved")

/-- RuleEngine._create_or_update_incident. When a non-resolved incident for
the (track id, rule id) pair already exists in the registry (first in
insertion order), it is promoted from tentative to confirmed when still
unconfirmed and its confidence / frame-id histories are extended; otherwise
a fresh tentative incident is created under the id
rule_id _ track_id _ int(timestamp) and registered. The Python source reads
track_rule_timers[(track_id, rule_id)] for the first-detected time, which
raises KeyError when absent; every caller has just ensured presence, and we
model the absent case with 0. -/
def RuleEngine.create_or_update_incident (eng : RuleEngine) (track : Track)
    (rule : Rule) (timestamp : ℚ) : Incident × RuleEngine :=
  match ((eng.incidents.map Prod.snd).filter
      (incident_openb track.track_id rule.rule_id)).head? with
  | some inc0 =>
    let inc1 :=
      if inc0.state = "tentative" ∧ inc0.confirmed_time = none then
        { inc0 with confirmed_time := some timestamp, state := "confirmed" }
      else inc0
    let inc2 :=
      match track.detection_history.getLast? with
      | some latest =>
        { inc1 with confidence_scores := inc1.confidence_scores ++ [latest.confidence],
                    frame_ids := inc1.frame_ids ++ [latest.frame_id] }
      | none => inc1
    (inc2, { eng with incidents := dictSet eng.incidents inc0.incident_id inc2 })
  | none =>
    let incident_id :=
      rule.rule_id ++ "_" ++ toString track.track_id ++ "_" ++ toString (pyInt timestamp)
    let inc : Incident :=
      { incident_id := incident_id
        rule_id := rule.rule_id
        track_id := track.track_id
        first_detected_time :=
          (dictGet eng.track_rule_timers (track.track_id, rule.rule_id)).getD 0
        confirmed_time := none
        resolved_time := none
        state := "tentative" }
    (inc, { eng with
              incidents := dictSet eng.incidents incident_id inc
              active_incidents_by_track :=
                dictSet eng.active_incidents_by_track track.track_id
                  ((dictGet eng.active_incidents_by_track track.track_id).getD []
                    ++ [incident_id]) })

/-- RuleEngine._check_dwell_time: first matching frame only initializes the
timer and frame list; later matching frames append the frame id and test
the dwell and frame-count thresholds before creating or updating an
incident. -/
def RuleEngine.check_dwell_time (eng : RuleEngine) (track : Track) (rule : Rule)
    (frame_id : Int) (timestamp : ℚ) : Option Incident × RuleEngine :=
  let key := (track.track_id, rule.rule_id)
  match dictGet eng.track_rule_timers key with
  | none =>
    (none, { eng with
               track_rule_timers := dictSet eng.track_rule_timers key timestamp
               track_rule_frames := dictSet eng.track_rule_frames key [frame_id] })
  | some first_ts =>
    let frames := (dictGet eng.track_rule_frames key).getD [] ++ [frame_id]
    let eng2 := { eng with track_rule_frames := dictSet eng.track_rule_frames key frames }
    let elapsed := timestamp - first_ts
    let dwell_met := decide (elapsed ≥ rule.conditions.dwell_seconds)
    let frames_met := decide ((frames.length : Int) ≥ rule.conditions.min_frames)
    if dwell_met && frames_met then
      let r := eng2.create_or_update_incident track rule timestamp
      (some r.1, r.2)
    else (none, eng2)

/-- RuleEngine._reset_timer: pop the dwell timer and frame list of a
(track id, rule id) pair. -/
def RuleEngine.reset_timer (eng : RuleEngine) (track_id : Int) (rule_id : String) :
    RuleEngine :=
  { eng with
      track_rule_timers := dictPop eng.track_rule_timers (track_id, rule_id)
      track_rule_frames := dictPop eng.track_rule_frames (track_id, rule_id) }

/-- The body of the per-track inner loop of RuleEngine.evaluate. -/
def RuleEngine.evaluate_step (rule : Rule) (frame_id : Int) (timestamp : ℚ)
    (acc : List Incident × RuleEngine) (track : Track) : List Incident × RuleEngine :=
  if RuleEngine.track_matches_rule track rule frame_id timestamp then
    let r := acc.2.check_dwell_time track rule frame_id timestamp
    match r.1 with
    | some inc => (acc.1 ++ [inc], r.2)
    | none => (acc.1, r.2)
  else (acc.1, acc.2.reset_timer track.track_id rule.rule_id)

/-- RuleEngine.evaluate: infer helmet status for the incoming tracks, then
for every rule and every track either advance the dwell tracker (matching
pair) or reset it (non-matching pair), collecting the new or updated
incidents. The final _cleanup_resolved_incidents call of the source is a
no-op placeholder. -/
def RuleEngine.evaluate (eng : RuleEngine) (tracks : List Track) (frame_id : Int)
    (timestamp : ℚ) : List Incident × RuleEngine :=
  let r0 := eng.infer_helmet_status tracks
  eng.rules.foldl
    (fun acc rule => r0.1.foldl (RuleEngine.evaluate_step rule frame_id timestamp) acc)
    ([], r0.2)

/-- RuleEngine.resolve_incident: force the terminal resolved state on an
incident present in the registry; unknown ids are ignored. -/
def RuleEngine.resolve_incident (eng : RuleEngine) (incident_id : String)
    (timestamp : ℚ) : RuleEngine :=
  match dictGet eng.incidents incident_id with
  | some inc =>
    let inc2 := { inc with state := "resolved", resolved_time := some timestamp }
    { eng with incidents := dictSet eng.incidents incident_id inc2 }
  | none => eng

/-- RuleEngine.should_notify: confirmed incidents only, gated by the rule
cooldown relative to the last notification time. -/
def RuleEngine.should_notify (incident : Incident) (current_timestamp : ℚ)
    (rule : Rule) : Bool :=
  if incident.state ≠ "confirmed" then false
  else
    match incident.last_notification_time with
    | none => true
    | some t => decide (current_timestamp - t ≥ rule.actions.cooldown_seconds)

/-- RuleEngine.mark_notified: stamp the last notification time and bump the
notification counter. -/
def RuleEngine.mark_notified (incident : Incident) (timestamp : ℚ) : Incident :=
  { incident with
      last_notification_time := some timestamp
      notification_count := incident.notification_count + 1 }

/-- RuleEngine.get_active_incidents: all non-resolved incidents. -/
def RuleEngine.get_active_incidents (eng : RuleEngine) : List Incident :=
  (eng.incidents.map Prod.snd).filter (fun inc => decide (inc.state ≠ "resolved"))

/-- RuleEngine.get_confirmed_incidents: all confirmed incidents. -/
def RuleEngine.get_confirmed_incidents (eng : RuleEngine) : List Incident :=
  (eng.incidents.map Prod.snd).filter (fun inc => decide (inc.state = "confirmed"))

/-! ## Evidence ring buffer (src/core/record/ring_buffer.py)

Numpy frame arrays are modelled through a small heap: frames live at
addresses in a growing list of frame contents, and callers hand add_frame
an address. The source calls frame.copy() before storing, which we model
by allocating a fresh heap cell holding the current contents of the
caller's address; the ownership contract (the buffer must not alias
caller-owned memory) then becomes the provable statement that stored
addresses differ from the caller's and survive later writes to it. -/

/-- Frame contents: the raw bytes of a numpy array, so nbytes is the list
length. -/
abbrev Frame := List Nat

/-- Write to a heap address (models in-place mutation of a numpy array). -/
def heapWrite (heap : List Frame) (addr : Nat) (f : Frame) : List Frame :=
  heap.set addr f

/-- Append to a collections.deque with maxlen: once at capacity the oldest
(leftmost) entries are evicted. -/
def dequeAppend {α : Type} (maxlen : Nat) (l : List α) (e : α) : List α :=
  let l2 := l ++ [e]
  if l2.length > maxlen then l2.drop (l2.length - maxlen) else l2

/-- VideoRingBuffer state: configuration, the entry deque of
(frame address, timestamp, frame id), the memory estimate, and the frame
heap. -/
structure VideoRingBuffer where
  max_seconds : ℚ
  fps : ℚ
  max_frames : Nat
  max_memory_mb : ℚ
  buffer : List (Nat × ℚ × Int)
  estimated_frame_size_mb : ℚ
  heap : List Frame
deriving DecidableEq, Repr

/-- VideoRingBuffer.__init__: capacity int(max_seconds * fps), an empty
deque and a zero memory estimate. The initial heap holds the caller-owned
arrays in existence. Python raises on a negative deque maxlen; toNat keeps
the model total. -/
def VideoRingBuffer.init (max_seconds fps max_memory_mb : ℚ) (heap0 : List Frame) :
    VideoRingBuffer :=
  { max_seconds := max_seconds
    fps := fps
    max_frames := (pyInt (max_seconds * fps)).toNat
    max_memory_mb := max_memory_mb
    buffer := []
    estimated_frame_size_mb := 0
    heap := heap0 }

/-- VideoRingBuffer.add_frame. On the first frame carrying bytes the
per-frame memory footprint is estimated and, when the projected total
exceeds the configured cap, the capacity is shrunk and the deque recreated
empty (as the source does by rebinding self.buffer). The frame is then
stored as a copy: a fresh heap cell is allocated with the current contents
of the caller's address and that fresh address is appended to the deque,
evicting the oldest entry once at capacity. -/
def VideoRingBuffer.add_frame (rb : VideoRingBuffer) (frame_addr : Nat)
    (timestamp : ℚ) (frame_id : Int) : VideoRingBuffer :=
  let frame := rb.heap.getD frame_addr []
  let rb1 :=
    if rb.estimated_frame_size_mb = 0 then
      let est := (frame.length : ℚ) / (1024 * 1024)
      if est * (rb.max_frames : ℚ) > rb.max_memory_mb then
        { rb with
            estimated_frame_size_mb := est
            max_frames := (pyInt (rb.max_memory_mb / est)).toNat
            buffer := [] }
      else { rb with estimated_frame_size_mb := est }
    else rb
  let copy_addr := rb1.heap.length
  { rb1 with
      heap := rb1.heap ++ [frame]
      buffer := dequeAppend rb1.max_frames rb1.buffer (copy_addr, timestamp, frame_id) }

/-- The frame-selection and failure-signalling logic of
VideoRingBuffer.extract_clip: none on an empty buffer; otherwise the stored
entries whose timestamp lies in the closed window around the trigger, in
arrival order, and none when that selection is empty. The subsequent video
writing is disk I/O outside the model (its writer-open failure also returns
None in the source, never an exception). -/
def VideoRingBuffer.extract_clip_frames (rb : VideoRingBuffer)
    (trigger_timestamp pre_seconds post_seconds : ℚ) :
    Option (List (Nat × ℚ × Int)) :=
  if rb.buffer = [] then none
  else
    let start_time := trigger_timestamp - pre_seconds
    let end_time := trigger_timestamp + post_seconds
    let clip_frames := rb.buffer.filter
      (fun e => decide (start_time ≤ e.2.1 ∧ e.2.1 ≤ end_time))
    if clip_frames = [] then none else some clip_frames

/-! ## Notification dispatcher (src/core/notify/notification_manager.py) -/

/-- NotificationPayload dataclass from src/core/notify/base_notifier.py. -/
structure NotificationPayload where
  incident_id : String
  rule_id : String
  rule_description : String
  track_id : Int
  confirmed_time : ℚ
  snapshot_path : Option String
  video_clip_path : Option String
  avg_confidence : ℚ
  camera_id : String
  location : String
deriving DecidableEq, Repr

/-- Outcome of one adapter send call: a boolean result, or a raised
exception. -/
inductive SendOutcome where
  | ok (success : Bool)
  | exn (msg : String)
deriving DecidableEq, Repr

/-- A loaded channel adapter, reduced to its send behaviour on a payload. -/
structure NotifierModel where
  send : NotificationPayload → SendOutcome

/-- The payload built at the top of NotificationManager.notify. The Python
expression incident.confirmed_time or incident.first_detected_time falls
through on a falsy confirmed time, i.e. both on None and on 0.0. -/
def build_payload (incident : Incident) (rule : Rule) : NotificationPayload :=
  { incident_id := incident.incident_id
    rule_id := rule.rule_id
    rule_description := rule.description
    track_id := incident.track_id
    confirmed_time :=
      match incident.confirmed_time with
      | some t => if t ≠ 0 then t else incident.first_detected_time
      | none => incident.first_detected_time
    snapshot_path := incident.snapshots.head?
    video_clip_path := incident.video_clip_path
    avg_confidence :=
      if incident.confidence_scores ≠ [] then
        incident.confidence_scores.sum / (incident.confidence_scores.length : ℚ)
      else 0
    camera_id := rule.area_id
    location := rule.area_id }

/-- What one channel of NotificationManager.notify contributes to the
result map: false for a channel with no loaded adapter, false for an
adapter whose send raises (the exception is caught in the per-channel try
block), otherwise the boolean the adapter returned. -/
def channel_result (notifiers : List (String × NotifierModel))
    (payload : NotificationPayload) (channel_name : String) : Bool :=
  match dictGet notifiers channel_name with
  | some n =>
    match n.send payload with
    | SendOutcome.ok b => b
    | SendOutcome.exn _ => false
  | none => false

/-- NotificationManager.notify: build one payload, then fill the result
dict channel by channel over the rule's channel list. Each channel is
attempted inside its own try block, so one adapter's exception never
prevents the remaining channels from being attempted, and the call as a
whole is total (never raises). The trailing always-on console send of the
source does not touch the returned result map. -/
def NotificationManager.notify (notifiers : List (String × NotifierModel))
    (incident : Incident) (rule : Rule) : List (String × Bool) :=
  let payload := build_payload incident rule
  rule.actions.notify_channels.foldl
    (fun results channel_name =>
      dictSet results channel_name (channel_result notifiers payload channel_name))
    []
section DictLemmas

variable {K V : Type} [DecidableEq K]

theorem dictGet_nil (k : K) : dictGet ([] : List (K × V)) k = none := rfl

theorem dictGet_cons (e : K × V) (d : List (K × V)) (k : K) :
    dictGet (e :: d) k = if e.1 = k then some e.2 else dictGet d k := by
  by_cases h : e.1 = k <;> simp [dictGet, List.find?_cons, h]

theorem dictSet_of_not_mem (d : List (K × V)) (k : K) (v : V)
    (h : k ∉ d.map Prod.fst) : dictSet d k v = d ++ [(k, v)] := by
  have hany : d.any (fun e => decide (e.1 = k)) = false := by
    simp only [List.any_eq_false, decide_eq_true_eq]
    intro e he hek
    exact h (by simpa [hek] using List.mem_map_of_mem Prod.fst he)
  simp [dictSet, hany]

theorem dictSet_of_mem (d : List (K × V)) (k : K) (v : V)
    (h : k ∈ d.map Prod.fst) :
    dictSet d k v = d.map (fun e => if e.1 = k then (k, v) else e) := by
  have hany : d.any (fun e => decide (e.1 = k)) = true := by
    simp only [List.any_eq_true, decide_eq_true_eq]
    rcases List.mem_map.mp h with ⟨e, he, hek⟩
    exact ⟨e, he, hek⟩
  simp [dictSet, hany]

theorem dictGet_map_replace_self (d : List (K × V)) (k : K) (v : V)
    (h : k ∈ d.map Prod.fst) :
    dictGet (d.map (fun e => if e.1 = k then (k, v) else e)) k = some v := by
  induction d with
  | nil => simp at h
  | cons e t ih =>
    by_cases he : e.1 = k
    · simp [dictGet_cons, he]
    · have ht : k ∈ t.map Prod.fst := by
        rcases List.mem_map.mp h with ⟨x, hx, hxk⟩
        rcases List.mem_cons.mp hx with hx1 | hx2
        · exact absurd (hx1 ▸ hxk) he
        · exact List.mem_map.mpr ⟨x, hx2, hxk⟩
      simpa [dictGet_cons, he] using ih ht

theorem dictGet_map_replace_ne (d : List (K × V)) (k k2 : K) (v : V)
    (h : k2 ≠ k) :
    dictGet (d.map (fun e => if e.1 = k then (k, v) else e)) k2 = dictGet d k2 := by
  induction d with
  | nil => rfl
  | cons e t ih =>
    by_cases he : e.1 = k
    · have hek2 : e.1 ≠ k2 := by rw [he]; exact Ne.symm h
      simpa [dictGet_cons, he, Ne.symm h, hek2] using ih
    · simp only [List.map_cons, if_neg he, dictGet_cons]
      by_cases he2 : e.1 = k2 <;> simp [he2, ih]

theorem dictGet_append_single_self (d : List (K × V)) (k : K) (v : V)
    (h : k ∉ d.map Prod.fst) :
    dictGet (d ++ [(k, v)]) k = some v := by
  induction d with
  | nil => simp [dictGet_cons]
  | cons e t ih =>
    have he : e.1 ≠ k := fun hek =>
      h (by simp only [List.map_cons, hek]; exact List.mem_cons_self k (t.map Prod.fst))
    have ht : k ∉ t.map Prod.fst := fun hk => h (by simp [hk])
    simpa [List.cons_append, dictGet_cons, he] using ih ht

theorem dictGet_append_single_ne (d : List (K × V)) (k k2 : K) (v : V)
    (h : k2 ≠ k) :
    dictGet (d ++ [(k, v)]) k2 = dictGet d k2 := by
  induction d with
  | nil => simp [dictGet_cons, Ne.symm h, dictGet_nil]
  | cons e t ih =>
    by_cases he : e.1 = k2 <;> simp [List.cons_append, dictGet_cons, he, ih]

theorem dictGet_dictSet_self (d : List (K × V)) (k : K) (v : V) :
    dictGet (dictSet d k v) k = some v := by
  by_cases h : k ∈ d.map Prod.fst
  · rw [dictSet_of_mem d k v h]; exact dictGet_map_replace_self d k v h
  · rw [dictSet_of_not_mem d k v h]; exact dictGet_append_single_self d k v h

theorem dictGet_dictSet_ne (d : List (K × V)) (k k2 : K) (v : V) (h : k2 ≠ k) :
    dictGet (dictSet d k v) k2 = dictGet d k2 := by
  by_cases hm : k ∈ d.map Prod.fst
  · rw [dictSet_of_mem d k v hm]; exact dictGet_map_replace_ne d k k2 v h
  · rw [dictSet_of_not_mem d k v hm]; exact dictGet_append_single_ne d k k2 v h

theorem dictGet_dictPop_self (d : List (K × V)) (k : K) :
    dictGet (dictPop d k) k = none := by
  induction d with
  | nil => rfl
  | cons e t ih =>
    by_cases he : e.1 = k
    · simpa [dictPop, List.filter_cons, he] using ih
    · simpa [dictPop, List.filter_cons, he, dictGet_cons] using ih

theorem dictGet_dictPop_ne (d : List (K × V)) (k k2 : K) (h : k2 ≠ k) :
    dictGet (dictPop d k) k2 = dictGet d k2 := by
  induction d with
  | nil => rfl
  | cons e t ih =>
    by_cases he : e.1 = k
    · have hne : e.1 ≠ k2 := by rw [he]; exact Ne.symm h
      rw [show dictPop (e :: t) k = dictPop t k by simp [dictPop, List.filter_cons, he],
          dictGet_cons, if_neg hne]
      exact ih
    · rw [show dictPop (e :: t) k = e :: dictPop t k by simp [dictPop, List.filter_cons, he],
          dictGet_cons, dictGet_cons]
      by_cases he2 : e.1 = k2 <;> simp [he2, ih]

theorem map_fst_dictSet_of_mem (d : List (K × V)) (k : K) (v : V)
    (h : k ∈ d.map Prod.fst) :
    (dictSet d k v).map Prod.fst = d.map Prod.fst := by
  rw [dictSet_of_mem d k v h, List.map_map]
  refine List.map_congr_left ?_
  intro e _
  by_cases he : e.1 = k <;> simp [Function.comp, he]

theorem map_fst_dictSet_of_not_mem (d : List (K × V)) (k : K) (v : V)
    (h : k ∉ d.map Prod.fst) :
    (dictSet d k v).map Prod.fst = d.map Prod.fst ++ [k] := by
  rw [dictSet_of_not_mem d k v h]; simp

theorem mem_map_fst_dictSet (d : List (K × V)) (k k2 : K) (v : V)
    (h : k2 ∈ d.map Prod.fst) : k2 ∈ (dictSet d k v).map Prod.fst := by
  by_cases hm : k ∈ d.map Prod.fst
  · rw [map_fst_dictSet_of_mem d k v hm]; exact h
  · rw [map_fst_dictSet_of_not_mem d k v hm]; exact List.mem_append_left _ h

end DictLemmas
/-! ## Claim C10 -/

/-- Claim C10: for a (track id, rule id) pair with no accumulated dwell
state, the first matching frame only initializes the timer and frame list
and never yields an incident: _check_dwell_time returns no incident on that
call (for every rule, in particular when dwell_seconds is 0 and min_frames
is 1), leaves the incident registry untouched, and records the current
timestamp and the singleton frame list for the pair. -/
theorem c10_first_match_never_creates (eng : RuleEngine) (track : Track)
    (rule : Rule) (frame_id : Int) (timestamp : ℚ)
    (h : dictGet eng.track_rule_timers (track.track_id, rule.rule_id) = none) :
    (eng.check_dwell_time track rule frame_id timestamp).1 = none ∧
    (eng.check_dwell_time track rule frame_id timestamp).2.incidents = eng.incidents ∧
    (eng.check_dwell_time track rule frame_id timestamp).2.track_rule_timers
      = dictSet eng.track_rule_timers (track.track_id, rule.rule_id) timestamp ∧
    (eng.check_dwell_time track rule frame_id timestamp).2.track_rule_frames
      = dictSet eng.track_rule_frames (track.track_id, rule.rule_id) [frame_id] := by
  simp [RuleEngine.check_dwell_time, h]

def c10_rule : Rule :=
  { rule_id := "r0", area_id := "a0", description := "zero dwell",
    prompt_positive := "person", prompt_negative := none,
    box_threshold := 35 / 100, text_threshold := 25 / 100,
    conditions := { dwell_seconds := 0, min_confidence := 0, min_frames := 1 },
    roi := none,
    actions := { cooldown_seconds := 60, record_pre_seconds := 5,
                 record_post_seconds := 5, notify_channels := [] } }

def c10_track : Track :=
  { track_id := 4, bbox := (0, 0, 2, 2), confidence := 9 / 10,
    class_name := "person", first_seen_frame := 0, last_seen_frame := 0,
    first_seen_time := 0, last_seen_time := 0, state := "confirmed",
    detection_history :=
      [{ bbox := (0, 0, 2, 2), confidence := 9 / 10, class_name := "person",
         prompt_used := "person", frame_id := 0 }] }

def c10_eng : RuleEngine := { rules := [c10_rule] }

/-- Witness for C10 at a rule with dwell_seconds 0 and min_frames 1. -/
theorem c10_first_match_never_creates_witness :
    (c10_eng.check_dwell_time c10_track c10_rule 0 0).1 = none ∧
    (c10_eng.check_dwell_time c10_track c10_rule 0 0).2.incidents = c10_eng.incidents ∧
    (c10_eng.check_dwell_time c10_track c10_rule 0 0).2.track_rule_timers
      = dictSet c10_eng.track_rule_timers (c10_track.track_id, c10_rule.rule_id) 0 ∧
    (c10_eng.check_dwell_time c10_track c10_rule 0 0).2.track_rule_frames
      = dictSet c10_eng.track_rule_frames (c10_track.track_id, c10_rule.rule_id) [0] :=
  c10_first_match_never_creates c10_eng c10_track c10_rule 0 0 rfl

/-! ## Claim C4 -/

/-- The notify-eligibility test as worded by the spec. -/
def should_notify_spec (incident : Incident) (now : ℚ) (rule : Rule) : Prop :=
  incident.state = "confirmed" ∧
    (incident.last_notification_time = none ∨
      ∃ t, incident.last_notification_time = some t ∧
        now - t ≥ rule.actions.cooldown_seconds)

/-- Claim C4: should_notify holds exactly when the incident is confirmed
and either no notification was recorded or the cooldown has elapsed since
the last one; and right after mark_notified at time ts it holds again
exactly when the incident is confirmed and now - ts has reached the
cooldown. -/
theorem c4_should_notify_iff (incident : Incident) (now : ℚ) (rule : Rule) :
    (RuleEngine.should_notify incident now rule = true ↔
      should_notify_spec incident now rule) ∧
    (∀ ts : ℚ, RuleEngine.should_notify (RuleEngine.mark_notified incident ts) now rule = true ↔
      (incident.state = "confirmed" ∧ now - ts ≥ rule.actions.cooldown_seconds)) := by
  constructor
  · unfold RuleEngine.should_notify should_notify_spec
    by_cases hs : incident.state = "confirmed"
    · cases h : incident.last_notification_time <;> simp [hs, h]
    · simp [hs]
  · intro ts
    unfold RuleEngine.should_notify RuleEngine.mark_notified
    by_cases hs : incident.state = "confirmed" <;> simp [hs]

/-! ## Claim C7 -/

/-- The closed selection window of extract_clip as a Boolean test. -/
def in_clip_window (trigger pre post : ℚ) (e : Nat × ℚ × Int) : Bool :=
  decide (trigger - pre ≤ e.2.1 ∧ e.2.1 ≤ trigger + post)

/-- Claim C7: extract_clip selects exactly the stored entries whose
timestamp lies in the closed interval around the trigger, in arrival
order (the selection is the order-preserving filter of the buffer), and
fails with none, rather than raising, exactly when the buffer is empty or
no entry falls in the window. -/
theorem c7_extract_clip_selection (rb : VideoRingBuffer) (trigger pre post : ℚ) :
    (∀ l, rb.extract_clip_frames trigger pre post = some l →
      l = rb.buffer.filter (in_clip_window trigger pre post) ∧ l ≠ []) ∧
    (rb.extract_clip_frames trigger pre post = none ↔
      rb.buffer = [] ∨ rb.buffer.filter (in_clip_window trigger pre post) = []) := by
  have hdef : rb.extract_clip_frames trigger pre post =
      if rb.buffer = [] then none
      else if rb.buffer.filter (in_clip_window trigger pre post) = [] then none
      else some (rb.buffer.filter (in_clip_window trigger pre post)) := rfl
  rw [hdef]
  by_cases hb : rb.buffer = []
  · rw [if_pos hb]
    exact ⟨(fun l h => nomatch h), by simp [hb]⟩
  · rw [if_neg hb]
    by_cases hc : rb.buffer.filter (in_clip_window trigger pre post) = []
    · rw [if_pos hc]
      exact ⟨(fun l h => nomatch h), by simp [hc]⟩
    · rw [if_neg hc]
      constructor
      · intro l h
        cases h
        exact ⟨rfl, hc⟩
      · constructor
        · intro h; cases h
        · intro h
          rcases h with h | h
          · exact absurd h hb
          · exact absurd h hc

/-- A buffer holding timestamps 5.0 to 20.0 at 1.0 second steps
(entries are (heap address, timestamp, frame id)). -/
def c7_rb : VideoRingBuffer :=
  { max_seconds := 30, fps := 30, max_frames := 900, max_memory_mb := 500,
    buffer := [(0, 5, 1), (1, 6, 2), (2, 7, 3), (3, 8, 4), (4, 9, 5), (5, 10, 6), (6, 11, 7), (7, 12, 8), (8, 13, 9), (9, 14, 10), (10, 15, 11), (11, 16, 12), (12, 17, 13), (13, 18, 14), (14, 19, 15), (15, 20, 16)],
    estimated_frame_size_mb := 0, heap := [] }

/-- The entries with timestamps 8.0 to 13.0, in ascending order. -/
def c7_expected : List (Nat × ℚ × Int) :=
  [(3, 8, 4), (4, 9, 5), (5, 10, 6), (6, 11, 7), (7, 12, 8), (8, 13, 9)]

/-- Witness for C7: extracting with trigger 10.0, pre 2.0, post 3.0 from
the buffer with timestamps 5.0 to 20.0 yields exactly the entries with
timestamps 8.0 to 13.0, in ascending order. -/
theorem c7_extract_clip_selection_witness :
    c7_expected = c7_rb.buffer.filter (in_clip_window 10 2 3) ∧ c7_expected ≠ [] :=
  (c7_extract_clip_selection c7_rb 10 2 3).1 c7_expected (by with_unfolding_all rfl)

/-! ## Claim C8 -/

/-- The rectangle ROI with corner points (0,0) and (100,100). -/
def c8_rect : ROI := { enabled := true, roi_type := "rectangle", points := [(0, 0), (100, 100)] }

/-- The square polygon ROI with vertices (0,0), (10,0), (10,10), (0,10). -/
def c8_poly : ROI :=
  { enabled := true, roi_type := "polygon", points := [(0, 0), (10, 0), (10, 10), (0, 10)] }

/-- Claim C8: a disabled ROI contains every point; the rectangle ROI with
corners (0,0) and (100,100) contains (50,50) and its boundary points but
not (150,50); the square polygon contains (5,5) but not (15,5); and
contains_bbox is containment of the bbox centroid. -/
theorem c8_roi_contract :
    (∀ roi : ROI, ∀ p : ℚ × ℚ, roi.enabled = false → roi.contains_point p = true) ∧
    c8_rect.contains_point (50, 50) = true ∧
    c8_rect.contains_point (150, 50) = false ∧
    c8_rect.contains_point (0, 0) = true ∧
    c8_rect.contains_point (100, 100) = true ∧
    c8_rect.contains_point (100, 50) = true ∧
    c8_poly.contains_point (5, 5) = true ∧
    c8_poly.contains_point (15, 5) = false ∧
    (∀ roi : ROI, ∀ b : ℚ × ℚ × ℚ × ℚ,
      roi.contains_bbox b
        = roi.contains_point ((b.1 + b.2.2.1) / 2, (b.2.1 + b.2.2.2) / 2)) := by
  refine ⟨?_, ?_, ?_, ?_, ?_, ?_, ?_, ?_, ?_⟩
  · intro roi p h
    simp [ROI.contains_point, h]
  · with_unfolding_all rfl
  · with_unfolding_all rfl
  · with_unfolding_all rfl
  · with_unfolding_all rfl
  · with_unfolding_all rfl
  · with_unfolding_all rfl
  · with_unfolding_all rfl
  · intro roi b
    rfl

/-- A disabled ROI fixture. -/
def c8_disabled : ROI := { enabled := false, roi_type := "rectangle", points := [] }

/-- Witness for C8: the disabled-ROI clause at a concrete point outside
any region. -/
theorem c8_roi_contract_witness : c8_disabled.contains_point (12345, -7) = true :=
  c8_roi_contract.1 c8_disabled (12345, -7) rfl

/-! ## Claim C5 -/

def c5_det : Detection :=
  { bbox := (0, 0, 1, 1), confidence := 1, class_name := "forklift",
    prompt_used := "", frame_id := 1 }

def c5_track : Track :=
  { track_id := 2, bbox := (0, 0, 1, 1), confidence := 1, class_name := "forklift",
    first_seen_frame := 0, last_seen_frame := 1, first_seen_time := 0,
    last_seen_time := 1, state := "confirmed", detection_history := [c5_det] }

def c5_rule : Rule :=
  { rule_id := "r5", area_id := "a5", description := "ppe rule",
    prompt_positive := "ppe", prompt_negative := none,
    box_threshold := 35 / 100, text_threshold := 25 / 100,
    conditions := { dwell_seconds := 0, min_confidence := 0 },
    roi := none,
    actions := { cooldown_seconds := 60, record_pre_seconds := 5,
                 record_post_seconds := 5, notify_channels := [] } }

/-- Counterexample to C5 as stated: the latest detection of this track has
an empty provenance string, the rule prompt "ppe" is not a substring of
it, yet _track_matches_rule returns true, because the Python truthiness
test on prompt_used skips the provenance check for an empty string. -/
theorem c5_counterexample :
    RuleEngine.track_matches_rule c5_track c5_rule 1 1 = true ∧
    c5_track.detection_history ≠ [] ∧
    c5_track.detection_history.getLast? = some c5_det ∧
    pyIn c5_rule.prompt_positive c5_det.prompt_used = false :=
  of_decide_eq_true (by with_unfolding_all rfl)

/-- Claim C5 (amended): if the latest detection of a track has a NON-EMPTY
provenance string and the rule's detection prompt is not a substring of
it, then _track_matches_rule returns false; an empty (or missing)
provenance string skips the prompt check. -/
theorem c5_prompt_gate (track : Track) (rule : Rule) (latest : Detection)
    (frame_id : Int) (timestamp : ℚ)
    (hl : track.detection_history.getLast? = some latest)
    (hne : latest.prompt_used ≠ "")
    (hni : pyIn rule.prompt_positive latest.prompt_used = false) :
    RuleEngine.track_matches_rule track rule frame_id timestamp = false := by
  unfold RuleEngine.track_matches_rule
  rw [hl]
  simp [hne, hni, ite_self]

def c5_det2 : Detection :=
  { bbox := (0, 0, 1, 1), confidence := 1, class_name := "forklift",
    prompt_used := "forklift . pallet", frame_id := 1 }

def c5_track2 : Track :=
  { track_id := 2, bbox := (0, 0, 1, 1), confidence := 1, class_name := "forklift",
    first_seen_frame := 0, last_seen_frame := 1, first_seen_time := 0,
    last_seen_time := 1, state := "confirmed", detection_history := [c5_det2] }

/-- Witness for the amended C5: a non-empty provenance string that does
not contain the rule prompt makes the match fail. -/
theorem c5_prompt_gate_witness :
    RuleEngine.track_matches_rule c5_track2 c5_rule 1 1 = false :=
  c5_prompt_gate c5_track2 c5_rule c5_det2 1 1 rfl
    (by with_unfolding_all decide) (by with_unfolding_all rfl)

/-! ## Claim C9 -/

/-- Channels not named by the fold are untouched in the result dict. -/
theorem notify_fold_not_mem (notifiers : List (String × NotifierModel))
    (payload : NotificationPayload) (channels : List String)
    (acc : List (String × Bool)) (ch : String) (h : ch ∉ channels) :
    dictGet (channels.foldl
      (fun results channel_name =>
        dictSet results channel_name (channel_result notifiers payload channel_name)) acc) ch
      = dictGet acc ch := by
  induction channels generalizing acc with
  | nil => rfl
  | cons c t ih =>
    have hc : ch ≠ c := fun hv => h (hv ▸ List.mem_cons_self c t)
    have ht : ch ∉ t := fun hv => h (List.mem_cons_of_mem c hv)
    rw [List.foldl_cons, ih _ ht, dictGet_dictSet_ne _ _ _ _ hc]

/-- Every channel in the folded list ends up bound to its own
channel_result, independent of the other channels. -/
theorem notify_fold_mem (notifiers : List (String × NotifierModel))
    (payload : NotificationPayload) (channels : List String)
    (acc : List (String × Bool)) (ch : String) (h : ch ∈ channels) :
    dictGet (channels.foldl
      (fun results channel_name =>
        dictSet results channel_name (channel_result notifiers payload channel_name)) acc) ch
      = some (channel_result notifiers payload ch) := by
  induction channels generalizing acc with
  | nil => cases h
  | cons c t ih =>
    by_cases hct : ch ∈ t
    · rw [List.foldl_cons]
      exact ih _ hct
    · have hc : ch = c := by
        rcases List.mem_cons.mp h with h1 | h2
        · exact h1
        · exact absurd h2 hct
      rw [List.foldl_cons, notify_fold_not_mem notifiers payload t _ ch hct, hc,
          dictGet_dictSet_self]

/-- Claim C9: notify returns a per-channel result map in which every
channel named by the rule is bound to an outcome computed from that
channel alone: false when no adapter is loaded under the name, false when
the loaded adapter's send raises (the exception is caught per channel), and
the adapter's boolean otherwise; in particular no channel's exception
prevents the others from being attempted and notify itself is a total
function (never raises). -/
theorem c9_notify_isolation (notifiers : List (String × NotifierModel))
    (incident : Incident) (rule : Rule) (ch : String)
    (h : ch ∈ rule.actions.notify_channels) :
    dictGet (NotificationManager.notify notifiers incident rule) ch
      = some (channel_result notifiers (build_payload incident rule) ch) ∧
    (dictGet notifiers ch = none →
      dictGet (NotificationManager.notify notifiers incident rule) ch = some false) ∧
    (∀ n msg, dictGet notifiers ch = some n →
      n.send (build_payload incident rule) = SendOutcome.exn msg →
      dictGet (NotificationManager.notify notifiers incident rule) ch = some false) := by
  have hmain : dictGet (NotificationManager.notify notifiers incident rule) ch
      = some (channel_result notifiers (build_payload incident rule) ch) :=
    notify_fold_mem notifiers (build_payload incident rule)
      rule.actions.notify_channels [] ch h
  refine ⟨hmain, ?_, ?_⟩
  · intro hn
    rw [hmain]
    unfold channel_result
    rw [hn]
  · intro n msg hn hsend
    rw [hmain]
    unfold channel_result
    rw [hn]
    simp [hsend]

def c9_payload_src : Incident :=
  { incident_id := "r9_3_100", rule_id := "r9", track_id := 3,
    first_detected_time := 100, confirmed_time := some 102,
    resolved_time := none, state := "confirmed" }

def c9_rule : Rule :=
  { rule_id := "r9", area_id := "dock", description := "three channels",
    prompt_positive := "person", prompt_negative := none,
    box_threshold := 35 / 100, text_threshold := 25 / 100,
    conditions := { dwell_seconds := 2, min_confidence := 4 / 10 },
    roi := none,
    actions := { cooldown_seconds := 60, record_pre_seconds := 5,
                 record_post_seconds := 5,
                 notify_channels := ["console", "slack", "email"] } }

/-- Three loaded adapters: console and email succeed, the slack send
raises. -/
def c9_notifiers : List (String × NotifierModel) :=
  [("console", { send := fun _ => SendOutcome.ok true }),
   ("slack", { send := fun _ => SendOutcome.exn "connection refused" }),
   ("email", { send := fun _ => SendOutcome.ok true })]

/-- Witness for C9: with three configured channels and the slack adapter
raising, the result map reports success for console and email and failure
for slack. -/
theorem c9_notify_isolation_witness :
    dictGet (NotificationManager.notify c9_notifiers c9_payload_src c9_rule) "slack"
      = some false ∧
    dictGet (NotificationManager.notify c9_notifiers c9_payload_src c9_rule) "console"
      = some true ∧
    dictGet (NotificationManager.notify c9_notifiers c9_payload_src c9_rule) "email"
      = some true := by
  refine ⟨?_, ?_, ?_⟩
  · exact ((c9_notify_isolation c9_notifiers c9_payload_src c9_rule "slack"
      (by simp [c9_rule])).2.2) _ "connection refused" rfl rfl
  · exact (c9_notify_isolation c9_notifiers c9_payload_src c9_rule "console"
      (by simp [c9_rule])).1.trans rfl
  · exact (c9_notify_isolation c9_notifiers c9_payload_src c9_rule "email"
      (by simp [c9_rule])).1.trans rfl
/-! ## Claim C6 -/

/-- The entry produced by the i-th C6 insertion (0-based): the fresh copy
address, the timestamp and the frame id are all i + 1. -/
def c6_entry (i : ℕ) : Nat × ℚ × Int := (i + 1, (i : ℚ) + 1, (i : ℤ) + 1)

/-- Ring buffer configured with max_seconds 10 and fps 30 (and the default
500 MB cap), over a heap holding the single caller-owned frame array. -/
def c6_rb0 : VideoRingBuffer := VideoRingBuffer.init 10 30 500 [[7]]

/-- One C6 insertion: the caller reuses its own frame array at heap
address 0 for frame i + 1. -/
def c6_insert (rb : VideoRingBuffer) (i : ℕ) : VideoRingBuffer :=
  rb.add_frame 0 ((i : ℚ) + 1) ((i : ℤ) + 1)

/-- The state after n C6 insertions. -/
def c6_run (n : ℕ) : VideoRingBuffer := (List.range n).foldl c6_insert c6_rb0

/-- The closed form of the C6 buffer after n insertions: the last
min(n, 300) of the inserted entries. -/
def c6_buf (n : ℕ) : List (Nat × ℚ × Int) :=
  ((List.range n).map c6_entry).drop (n - 300)

/-- Unfolding add_frame once the per-frame memory estimate is non-zero:
the caller frame is copied to a fresh heap address and the entry appended
with eviction; configuration fields do not change. -/
theorem add_frame_of_estimate_ne_zero (rb : VideoRingBuffer) (a : Nat) (ts : ℚ)
    (fid : Int) (h : rb.estimated_frame_size_mb ≠ 0) :
    rb.add_frame a ts fid =
      { rb with
          heap := rb.heap ++ [rb.heap.getD a []]
          buffer := dequeAppend rb.max_frames rb.buffer (rb.heap.length, ts, fid) } := by
  unfold VideoRingBuffer.add_frame
  simp [h]

/-- Appending the next C6 entry to the closed-form buffer under the
300-frame deque discipline yields the next closed form. -/
theorem c6_deque_step (n : ℕ) :
    dequeAppend 300 (c6_buf n) (c6_entry n) = c6_buf (n + 1) := by
  unfold dequeAppend c6_buf
  have hlen : ((List.range n).map c6_entry).length = n := by simp
  have hdrop : ((List.range n).map c6_entry).drop (n - 300) ++ [c6_entry n]
      = ((List.range (n + 1)).map c6_entry).drop (n - 300) := by
    rw [List.range_succ, List.map_append,
        List.drop_append_of_le_length (by rw [hlen]; omega)]
    simp
  have hlen1 : ((List.range (n + 1)).map c6_entry).length = n + 1 := by simp
  rw [hdrop]
  simp only [List.length_drop, hlen1]
  by_cases h : n < 300
  · rw [if_neg (by omega)]
    have h0 : n - 300 = 0 := by omega
    have h1 : n + 1 - 300 = 0 := by omega
    rw [h0, h1]
  · rw [if_pos (by omega)]
    rw [List.drop_drop]
    have : n - 300 + (n + 1 - (n - 300) - 300) = n + 1 - 300 := by omega
    rw [this]

/-- The C6 run invariant: after n insertions (n at least 1) the capacity
is still 300 frames, the memory estimate is the size of the one-byte test
frame, the heap holds the caller array plus the n copies, and the buffer
has its closed form. -/
theorem c6_run_spec (n : ℕ) (h1 : 1 ≤ n) :
    (c6_run n).max_frames = 300 ∧
    (c6_run n).estimated_frame_size_mb = 1 / (1024 * 1024) ∧
    (c6_run n).heap = List.replicate (n + 1) [7] ∧
    (c6_run n).buffer = c6_buf n := by
  induction n with
  | zero => omega
  | succ m ih =>
    by_cases hm : 1 ≤ m
    · rcases ih hm with ⟨hmax, hest, hheap, hbuf⟩
      have hstep : c6_run (m + 1) = c6_insert (c6_run m) m := by
        unfold c6_run
        rw [List.range_succ, List.foldl_append, List.foldl_cons, List.foldl_nil]
      have hne : (c6_run m).estimated_frame_size_mb ≠ 0 := by
        rw [hest]; norm_num
      rw [hstep]
      unfold c6_insert
      rw [add_frame_of_estimate_ne_zero _ _ _ _ hne]
      have hget : (c6_run m).heap.getD 0 [] = [7] := by
        rw [hheap, List.replicate_succ, List.getD_cons_zero]
      have hlen : (c6_run m).heap.length = m + 1 := by rw [hheap]; simp
      refine ⟨hmax, hest, ?_, ?_⟩
      · rw [hget, hheap]
        rw [← List.replicate_succ' (m + 1) ([7] : Frame)]
      · rw [hlen, hbuf, hmax]
        have : ((m + 1 : Nat), ((m : ℚ) + 1), ((m : ℤ) + 1)) = c6_entry m := rfl
        rw [this, c6_deque_step]
    · have hm0 : m = 0 := by omega
      subst hm0
      refine ⟨?_, ?_, ?_, ?_⟩ <;> with_unfolding_all rfl

/-- getD over replicate below the length. -/
theorem getD_replicate_of_lt {α : Type} (a d : α) (m n : ℕ) (h : m < n) :
    (List.replicate n a).getD m d = a := by
  induction n generalizing m with
  | zero => omega
  | succ k ih =>
    cases m with
    | zero => rw [List.replicate_succ, List.getD_cons_zero]
    | succ j =>
      rw [List.replicate_succ, List.getD_cons_succ]
      exact ih j (by omega)

/-- Claim C6: the ring buffer configured with max_seconds 10 and fps 30 has
a 300-frame capacity; after 301 insertions of the caller's frame array
(reused at heap address 0, no memory-cap shrink occurs for the one-byte
frame), exactly 300 entries remain and they are the insertions 2 to 301 —
the oldest entry (frame id 1) was evicted; the heap holds one fresh copy
per insertion, every stored entry points away from the caller's address,
and overwriting the caller's array afterwards leaves every stored frame's
contents unchanged (the buffer owns copies, never aliases). -/
theorem c6_ring_buffer_contract :
    c6_rb0.max_frames = 300 ∧
    (c6_run 301).buffer.length = 300 ∧
    (c6_run 301).buffer = (List.range 300).map (fun i => c6_entry (i + 1)) ∧
    (c6_run 301).heap = List.replicate 302 [7] ∧
    (c6_run 301).buffer.all (fun e => decide (e.1 ≠ 0)) = true ∧
    (c6_run 301).buffer.map (fun e => (heapWrite (c6_run 301).heap 0 [9]).getD e.1 [])
      = List.replicate 300 [7] := by
  obtain ⟨hmax, hest, hheap, hbuf⟩ := c6_run_spec 301 (by omega)
  have hbuf2 : (c6_run 301).buffer = (List.range 300).map (fun i => c6_entry (i + 1)) := by
    rw [hbuf]
    unfold c6_buf
    have h1 : 301 - 300 = 1 := by omega
    rw [h1, List.range_succ_eq_map, List.map_cons, List.drop_one, List.tail_cons,
        List.map_map]
    exact List.map_congr_left (fun i _ => rfl)
  have hrb0 : c6_rb0.max_frames = 300 := by with_unfolding_all rfl
  have hlen : (c6_run 301).buffer.length = 300 := by rw [hbuf2]; simp
  have hheap302 : (c6_run 301).heap = List.replicate 302 [7] := hheap
  have hall : (c6_run 301).buffer.all (fun e => decide (e.1 ≠ 0)) = true := by
    rw [hbuf2]
    simp only [List.all_eq_true]
    intro e he
    rcases List.mem_map.mp he with ⟨i, _, rfl⟩
    simp [c6_entry]
  have hw : heapWrite (c6_run 301).heap 0 [9] = [9] :: List.replicate 301 [7] := by
    rw [hheap, List.replicate_succ]
    rfl
  have hcopy : (c6_run 301).buffer.map
      (fun e => (heapWrite (c6_run 301).heap 0 [9]).getD e.1 [])
      = List.replicate 300 [7] := by
    rw [hbuf2, hw, List.map_map]
    have hpt : ∀ i ∈ List.range 300,
        ((fun e => ([9] :: List.replicate 301 ([7] : Frame)).getD e.1 []) ∘
          (fun i => c6_entry (i + 1))) i = [7] := by
      intro i hi
      have hi2 : i < 300 := List.mem_range.mp hi
      show ([9] :: List.replicate 301 ([7] : Frame)).getD (i + 1 + 1) [] = [7]
      rw [List.getD_cons_succ]
      exact getD_replicate_of_lt [7] [] (i + 1) 301 (by omega)
    rw [List.map_congr_left hpt]
    simp
  exact ⟨hrb0, hlen, hbuf2, hheap302, hall, hcopy⟩
/-! ## Claim C3 -/

/-- Popping a key keeps every absent key absent. -/
theorem dictGet_dictPop_of_none {K V : Type} [DecidableEq K] (d : List (K × V))
    (k k2 : K) (h : dictGet d k2 = none) : dictGet (dictPop d k) k2 = none := by
  by_cases hk : k2 = k
  · subst hk; exact dictGet_dictPop_self d k2
  · rw [dictGet_dictPop_ne d k k2 hk]; exact h

/-- _create_or_update_incident never touches the dwell timers or frame
lists. -/
theorem create_or_update_keeps_dwell (eng : RuleEngine) (track : Track)
    (rule : Rule) (ts : ℚ) :
    (eng.create_or_update_incident track rule ts).2.track_rule_timers
        = eng.track_rule_timers ∧
    (eng.create_or_update_incident track rule ts).2.track_rule_frames
        = eng.track_rule_frames := by
  cases hE : ((eng.incidents.map Prod.snd).filter
      (incident_openb track.track_id rule.rule_id)).head? with
  | none =>
    refine ⟨?_, ?_⟩ <;> simp only [RuleEngine.create_or_update_incident, hE]
  | some inc0 =>
    refine ⟨?_, ?_⟩ <;> simp only [RuleEngine.create_or_update_incident, hE]

/-- _check_dwell_time only writes the dwell state of its own
(track id, rule id) pair: any other absent pair stays absent. -/
theorem check_dwell_preserves_none (eng : RuleEngine) (track : Track) (rule : Rule)
    (fid : Int) (ts : ℚ) (key : Int × String)
    (hk : (track.track_id, rule.rule_id) ≠ key)
    (h1 : dictGet eng.track_rule_timers key = none)
    (h2 : dictGet eng.track_rule_frames key = none) :
    dictGet (eng.check_dwell_time track rule fid ts).2.track_rule_timers key = none ∧
    dictGet (eng.check_dwell_time track rule fid ts).2.track_rule_frames key = none := by
  cases hg : dictGet eng.track_rule_timers (track.track_id, rule.rule_id) with
  | none =>
    refine ⟨?_, ?_⟩ <;> simp only [RuleEngine.check_dwell_time, hg] <;>
      rw [dictGet_dictSet_ne _ _ _ _ (Ne.symm hk)] <;> assumption
  | some first_ts =>
    have hcu := create_or_update_keeps_dwell
      { eng with track_rule_frames := dictSet eng.track_rule_frames (track.track_id, rule.rule_id) ((dictGet eng.track_rule_frames (track.track_id, rule.rule_id)).getD [] ++ [fid]) }
      track rule ts
    refine ⟨?_, ?_⟩ <;> simp only [RuleEngine.check_dwell_time, hg] <;> split
    · rw [hcu.1]
      exact h1
    · exact h1
    · rw [hcu.2]
      rw [dictGet_dictSet_ne _ _ _ _ (Ne.symm hk)]
      exact h2
    · rw [dictGet_dictSet_ne _ _ _ _ (Ne.symm hk)]
      exact h2

/-- One evaluate step keeps the dwell state of a pair absent provided the
step's own pair, when it is that pair, does not match. -/
theorem evaluate_step_preserves_none (rule : Rule) (fid : Int) (ts : ℚ)
    (acc : List Incident × RuleEngine) (track : Track) (key : Int × String)
    (hm : (track.track_id, rule.rule_id) = key →
      RuleEngine.track_matches_rule track rule fid ts = false)
    (h1 : dictGet acc.2.track_rule_timers key = none)
    (h2 : dictGet acc.2.track_rule_frames key = none) :
    dictGet (RuleEngine.evaluate_step rule fid ts acc track).2.track_rule_timers key = none ∧
    dictGet (RuleEngine.evaluate_step rule fid ts acc track).2.track_rule_frames key = none := by
  by_cases hmt : RuleEngine.track_matches_rule track rule fid ts = true
  · have hk : (track.track_id, rule.rule_id) ≠ key := by
      intro hkey
      rw [hm hkey] at hmt
      cases hmt
    rcases check_dwell_preserves_none acc.2 track rule fid ts key hk h1 h2 with ⟨ha, hb⟩
    cases hr : (acc.2.check_dwell_time track rule fid ts).1 with
    | none =>
      refine ⟨?_, ?_⟩ <;> unfold RuleEngine.evaluate_step <;> rw [if_pos hmt] <;>
        simp only [hr] <;> assumption
    | some inc =>
      refine ⟨?_, ?_⟩ <;> unfold RuleEngine.evaluate_step <;> rw [if_pos hmt] <;>
        simp only [hr] <;> assumption
  · refine ⟨?_, ?_⟩ <;> unfold RuleEngine.evaluate_step <;> rw [if_neg hmt]
    · exact dictGet_dictPop_of_none _ _ _ h1
    · exact dictGet_dictPop_of_none _ _ _ h2

/-- The inner track fold of evaluate keeps an absent pair absent when no
track carrying the pair's track id matches the rule. -/
theorem evaluate_inner_preserves_none (rule : Rule) (fid : Int) (ts : ℚ)
    (tracks : List Track) (acc : List Incident × RuleEngine) (key : Int × String)
    (hm : ∀ t2 ∈ tracks, (t2.track_id, rule.rule_id) = key →
      RuleEngine.track_matches_rule t2 rule fid ts = false)
    (h1 : dictGet acc.2.track_rule_timers key = none)
    (h2 : dictGet acc.2.track_rule_frames key = none) :
    dictGet (tracks.foldl (RuleEngine.evaluate_step rule fid ts) acc).2.track_rule_timers key
      = none ∧
    dictGet (tracks.foldl (RuleEngine.evaluate_step rule fid ts) acc).2.track_rule_frames key
      = none := by
  induction tracks generalizing acc with
  | nil => exact ⟨h1, h2⟩
  | cons t rest ih =>
    rw [List.foldl_cons]
    rcases evaluate_step_preserves_none rule fid ts acc t key
      (hm t (List.mem_cons_self t rest)) h1 h2 with ⟨ha, hb⟩
    exact ih _ (fun t2 h2m => hm t2 (List.mem_cons_of_mem t h2m)) ha hb

/-- The inner track fold of evaluate leaves the dwell state of a processed
non-matching pair absent, whatever it was before: the pair's own step pops
it and no later step re-creates it. -/
theorem evaluate_inner_establishes_none (rule : Rule) (fid : Int) (ts : ℚ)
    (tracks : List Track) (acc : List Incident × RuleEngine) (key : Int × String)
    (hm : ∀ t2 ∈ tracks, (t2.track_id, rule.rule_id) = key →
      RuleEngine.track_matches_rule t2 rule fid ts = false)
    (track : Track) (ht : track ∈ tracks)
    (hkey : (track.track_id, rule.rule_id) = key) :
    dictGet (tracks.foldl (RuleEngine.evaluate_step rule fid ts) acc).2.track_rule_timers key
      = none ∧
    dictGet (tracks.foldl (RuleEngine.evaluate_step rule fid ts) acc).2.track_rule_frames key
      = none := by
  induction tracks generalizing acc with
  | nil => cases ht
  | cons t rest ih =>
    rw [List.foldl_cons]
    by_cases hteq : (t.track_id, rule.rule_id) = key
    · have hmt : RuleEngine.track_matches_rule t rule fid ts = false :=
        hm t (List.mem_cons_self t rest) hteq
      have hmt2 : ¬ RuleEngine.track_matches_rule t rule fid ts = true := by
        rw [hmt]; exact Bool.false_ne_true
      have hstep : RuleEngine.evaluate_step rule fid ts acc t
          = (acc.1, acc.2.reset_timer t.track_id rule.rule_id) := by
        unfold RuleEngine.evaluate_step
        rw [if_neg hmt2]
      rw [hstep]
      refine evaluate_inner_preserves_none rule fid ts rest _ key
        (fun t2 h2m => hm t2 (List.mem_cons_of_mem t h2m)) ?_ ?_
      · show dictGet (acc.2.reset_timer t.track_id rule.rule_id).track_rule_timers key = none
        unfold RuleEngine.reset_timer
        rw [← hteq]
        exact dictGet_dictPop_self _ _
      · show dictGet (acc.2.reset_timer t.track_id rule.rule_id).track_rule_frames key = none
        unfold RuleEngine.reset_timer
        rw [← hteq]
        exact dictGet_dictPop_self _ _
    · rcases List.mem_cons.mp ht with rfl | hrest
      · exact absurd hkey hteq
      · exact ih _ (fun t2 h2m => hm t2 (List.mem_cons_of_mem t h2m)) hrest

/-- The outer rule fold of evaluate keeps an absent pair absent when no
(track, rule) combination carrying the pair matches. -/
theorem evaluate_outer_preserves_none (rules : List Rule) (fid : Int) (ts : ℚ)
    (tracks : List Track) (acc : List Incident × RuleEngine) (key : Int × String)
    (hm : ∀ r2 ∈ rules, ∀ t2 ∈ tracks, (t2.track_id, r2.rule_id) = key →
      RuleEngine.track_matches_rule t2 r2 fid ts = false)
    (h1 : dictGet acc.2.track_rule_timers key = none)
    (h2 : dictGet acc.2.track_rule_frames key = none) :
    dictGet (rules.foldl
        (fun a r => tracks.foldl (RuleEngine.evaluate_step r fid ts) a)
        acc).2.track_rule_timers key = none ∧
    dictGet (rules.foldl
        (fun a r => tracks.foldl (RuleEngine.evaluate_step r fid ts) a)
        acc).2.track_rule_frames key = none := by
  induction rules generalizing acc with
  | nil => exact ⟨h1, h2⟩
  | cons r rest ih =>
    rw [List.foldl_cons]
    rcases evaluate_inner_preserves_none r fid ts tracks acc key
      (hm r (List.mem_cons_self r rest)) h1 h2 with ⟨ha, hb⟩
    exact ih _ (fun r2 hr2 => hm r2 (List.mem_cons_of_mem r hr2)) ha hb

/-- The outer rule fold of evaluate leaves a processed non-matching pair's
dwell state absent, whatever it was before. -/
theorem evaluate_outer_establishes_none (rules : List Rule) (fid : Int) (ts : ℚ)
    (tracks : List Track) (acc : List Incident × RuleEngine) (key : Int × String)
    (hm : ∀ r2 ∈ rules, ∀ t2 ∈ tracks, (t2.track_id, r2.rule_id) = key →
      RuleEngine.track_matches_rule t2 r2 fid ts = false)
    (rule : Rule) (hr : rule ∈ rules)
    (track : Track) (ht : track ∈ tracks)
    (hkey : (track.track_id, rule.rule_id) = key) :
    dictGet (rules.foldl
        (fun a r => tracks.foldl (RuleEngine.evaluate_step r fid ts) a)
        acc).2.track_rule_timers key = none ∧
    dictGet (rules.foldl
        (fun a r => tracks.foldl (RuleEngine.evaluate_step r fid ts) a)
        acc).2.track_rule_frames key = none := by
  induction rules generalizing acc with
  | nil => cases hr
  | cons r rest ih =>
    rw [List.foldl_cons]
    by_cases hreq : r.rule_id = rule.rule_id
    · have hkey2 : (track.track_id, r.rule_id) = key := by rw [hreq]; exact hkey
      rcases evaluate_inner_establishes_none r fid ts tracks acc key
        (hm r (List.mem_cons_self r rest)) track ht hkey2 with ⟨ha, hb⟩
      exact evaluate_outer_preserves_none rest fid ts tracks _ key
        (fun r2 hr2 => hm r2 (List.mem_cons_of_mem r hr2)) ha hb
    · rcases List.mem_cons.mp hr with rfl | hrest
      · exact absurd rfl hreq
      · exact ih _ (fun r2 hr2 => hm r2 (List.mem_cons_of_mem r hr2)) hrest

/-- Claim C3: when, on a frame, every enriched track carrying a given
track id fails to match every rule carrying a given rule id (the pair does
not match the rule on this frame) and the pair is actually processed (some
such rule and some such track exist), the evaluate call discards all
accumulated dwell state for the pair: afterwards neither a first-match
timestamp nor a matching-frame list is recorded for it. Consequently (last
conjunct) a later eligibility check for the pair starts from zero: from an
absent timer, _check_dwell_time records only the later frame's timestamp
and the singleton frame list and reports no incident. -/
theorem c3_nonmatching_frame_resets (eng : RuleEngine) (tracks : List Track)
    (frame_id : Int) (timestamp : ℚ) (tid : Int) (rid : String)
    (hm : ∀ r2 ∈ eng.rules, ∀ t2 ∈ (eng.infer_helmet_status tracks).1,
      (t2.track_id, r2.rule_id) = (tid, rid) →
      RuleEngine.track_matches_rule t2 r2 frame_id timestamp = false)
    (hr : ∃ rule ∈ eng.rules, rule.rule_id = rid)
    (ht : ∃ track ∈ (eng.infer_helmet_status tracks).1, track.track_id = tid) :
    dictGet (eng.evaluate tracks frame_id timestamp).2.track_rule_timers (tid, rid) = none ∧
    dictGet (eng.evaluate tracks frame_id timestamp).2.track_rule_frames (tid, rid) = none ∧
    (∀ (eng2 : RuleEngine) (track2 : Track) (rule2 : Rule) (fid2 : Int) (ts2 : ℚ),
      track2.track_id = tid → rule2.rule_id = rid →
      dictGet eng2.track_rule_timers (tid, rid) = none →
      (eng2.check_dwell_time track2 rule2 fid2 ts2).1 = none ∧
      dictGet (eng2.check_dwell_time track2 rule2 fid2 ts2).2.track_rule_timers (tid, rid)
        = some ts2 ∧
      dictGet (eng2.check_dwell_time track2 rule2 fid2 ts2).2.track_rule_frames (tid, rid)
        = some [fid2]) := by
  rcases hr with ⟨rule, hrin, hrid⟩
  rcases ht with ⟨track, htin, htid⟩
  have hkey : (track.track_id, rule.rule_id) = (tid, rid) := by rw [htid, hrid]
  have hout := evaluate_outer_establishes_none eng.rules frame_id timestamp
    (eng.infer_helmet_status tracks).1 ([], (eng.infer_helmet_status tracks).2)
    (tid, rid) hm rule hrin track htin hkey
  refine ⟨hout.1, hout.2, ?_⟩
  intro eng2 track2 rule2 fid2 ts2 h2tid h2rid habsent
  have hkey2 : (track2.track_id, rule2.rule_id) = (tid, rid) := by rw [h2tid, h2rid]
  have habsent2 : dictGet eng2.track_rule_timers (track2.track_id, rule2.rule_id) = none := by
    rw [hkey2]; exact habsent
  refine ⟨?_, ?_, ?_⟩ <;> simp only [RuleEngine.check_dwell_time, habsent2] <;> rw [hkey2]
  · exact dictGet_dictSet_self _ _ _
  · exact dictGet_dictSet_self _ _ _

def c3_rule : Rule :=
  { rule_id := "r3", area_id := "a3", description := "dwell reset",
    prompt_positive := "person", prompt_negative := none,
    box_threshold := 35 / 100, text_threshold := 25 / 100,
    conditions := { dwell_seconds := 0, min_confidence := 0, min_frames := 1 },
    roi := none,
    actions := { cooldown_seconds := 60, record_pre_seconds := 5,
                 record_post_seconds := 5, notify_channels := [] } }

/-- A track that no longer matches: its detection history is empty. -/
def c3_track : Track :=
  { track_id := 7, bbox := (0, 0, 2, 2), confidence := 9 / 10,
    class_name := "car", first_seen_frame := 0, last_seen_frame := 4,
    first_seen_time := 0, last_seen_time := 4, state := "confirmed",
    detection_history := [] }

/-- An engine that has already accumulated dwell state for pair (7, r3). -/
def c3_eng : RuleEngine :=
  { rules := [c3_rule]
    track_rule_timers := [((7, "r3"), 100)]
    track_rule_frames := [((7, "r3"), [1, 2, 3])] }

/-- Witness for C3: a frame on which the accumulated pair (7, r3) fails to
match wipes its timer and frame list. -/
theorem c3_nonmatching_frame_resets_witness :
    dictGet (c3_eng.evaluate [c3_track] 4 104).2.track_rule_timers (7, "r3") = none ∧
    dictGet (c3_eng.evaluate [c3_track] 4 104).2.track_rule_frames (7, "r3") = none := by
  have h := c3_nonmatching_frame_resets c3_eng [c3_track] 4 104 7 "r3"
    (by with_unfolding_all decide)
    (by with_unfolding_all decide)
    (by with_unfolding_all decide)
  exact ⟨h.1, h.2.1⟩
/-! ## Claim C1 -/

/-- Registry well-formedness: every incident sits under its own id and ids
are unique. Both hold by construction for every registry the engine builds. -/
def registry_wf (incidents : List (String × Incident)) : Prop :=
  (incidents.map Prod.fst).Nodup ∧ ∀ e ∈ incidents, e.1 = e.2.incident_id

/-- Number of non-resolved incidents for a (track id, rule id) pair. -/
def open_count (tid : Int) (rid : String) (incidents : List (String × Incident)) : Nat :=
  (incidents.map Prod.snd).countP (incident_openb tid rid)

/-- The C1 invariant: at most one non-resolved incident per pair. -/
def at_most_one_open (incidents : List (String × Incident)) : Prop :=
  ∀ tid rid, open_count tid rid incidents ≤ 1

/-- Two entries of an association list with unique keys and equal keys are
equal. -/
theorem eq_of_mem_of_nodup_keys {K V : Type} (d : List (K × V))
    (hnd : (d.map Prod.fst).Nodup) (e1 e2 : K × V) (h1 : e1 ∈ d) (h2 : e2 ∈ d)
    (hk : e1.1 = e2.1) : e1 = e2 := by
  induction d with
  | nil => cases h1
  | cons a t ih =>
    rw [List.map_cons, List.nodup_cons] at hnd
    rcases List.mem_cons.mp h1 with rfl | h1t
    · rcases List.mem_cons.mp h2 with rfl | h2t
      · rfl
      · exact absurd (hk ▸ List.mem_map_of_mem Prod.fst h2t) hnd.1
    · rcases List.mem_cons.mp h2 with rfl | h2t
      · exact absurd (hk ▸ List.mem_map_of_mem Prod.fst h1t) hnd.1
      · exact ih hnd.2 h1t h2t

/-- Replacing the entries of an absent key is the identity. -/
theorem map_replace_of_not_mem {K V : Type} [DecidableEq K] (d : List (K × V))
    (k : K) (v : V) (h : k ∉ d.map Prod.fst) :
    d.map (fun e => if e.1 = k then (k, v) else e) = d := by
  induction d with
  | nil => rfl
  | cons a t ih =>
    have ha : a.1 ≠ k := fun hv =>
      h (by rw [List.map_cons, ← hv]; exact List.mem_cons_self a.1 (t.map Prod.fst))
    have ht : k ∉ t.map Prod.fst := fun hv => h (by simp [hv])
    rw [List.map_cons, if_neg ha, ih ht]

/-- Replacement at a key whose entries keep the predicate value does not
change the count over the values. -/
theorem countP_map_replace_congr {K V : Type} [DecidableEq K] (d : List (K × V))
    (k : K) (v : V) (p : V → Bool) (h : ∀ e ∈ d, e.1 = k → p e.2 = p v) :
    ((d.map (fun e => if e.1 = k then (k, v) else e)).map Prod.snd).countP p
      = (d.map Prod.snd).countP p := by
  induction d with
  | nil => rfl
  | cons a t ih =>
    have iht := ih (fun e he hek => h e (List.mem_cons_of_mem a he) hek)
    by_cases ha : a.1 = k
    · have hpa : p a.2 = p v := h a (List.mem_cons_self a t) ha
      simp only [List.map_cons, if_pos ha, List.countP_cons, iht, hpa]
    · simp only [List.map_cons, if_neg ha, List.countP_cons, iht]

/-- Replacement by a value outside the predicate never raises the count. -/
theorem countP_map_replace_le {K V : Type} [DecidableEq K] (d : List (K × V))
    (k : K) (v : V) (p : V → Bool) (hv : p v = false) :
    ((d.map (fun e => if e.1 = k then (k, v) else e)).map Prod.snd).countP p
      ≤ (d.map Prod.snd).countP p := by
  induction d with
  | nil => exact Nat.le_refl 0
  | cons a t ih =>
    have hih := ih
    by_cases ha : a.1 = k
    · simp only [List.map_cons, if_pos ha, List.countP_cons, hv, Bool.false_eq_true,
        if_false]
      omega
    · simp only [List.map_cons, if_neg ha, List.countP_cons]
      omega

/-- Replacement in a zero-count registry with unique keys leaves at most
one match: only the replaced entry can match. -/
theorem countP_map_replace_of_zero {K V : Type} [DecidableEq K] (d : List (K × V))
    (k : K) (v : V) (p : V → Bool) (h0 : (d.map Prod.snd).countP p = 0)
    (hnd : (d.map Prod.fst).Nodup) :
    ((d.map (fun e => if e.1 = k then (k, v) else e)).map Prod.snd).countP p ≤ 1 := by
  induction d with
  | nil => exact Nat.le_succ 0
  | cons a t ih =>
    rw [List.map_cons, List.nodup_cons] at hnd
    rw [List.map_cons, List.countP_cons] at h0
    have h0t : (t.map Prod.snd).countP p = 0 := by omega
    have h0a : (if p a.2 then 1 else 0) = 0 := by omega
    by_cases ha : a.1 = k
    · have htk : k ∉ t.map Prod.fst := ha ▸ hnd.1
      rw [List.map_cons, if_pos ha, map_replace_of_not_mem t k v htk,
          List.map_cons, List.countP_cons, h0t]
      split <;> omega
    · rw [List.map_cons, if_neg ha, List.map_cons, List.countP_cons, h0a,
          Nat.add_zero]
      exact ih h0t hnd.2

/-- Writing an incident under its own id preserves registry
well-formedness. -/
theorem dictSet_registry_wf (d : List (String × Incident)) (v : Incident)
    (hwf : registry_wf d) : registry_wf (dictSet d v.incident_id v) := by
  rcases hwf with ⟨hnd, hcons⟩
  by_cases hm : v.incident_id ∈ d.map Prod.fst
  · constructor
    · rw [map_fst_dictSet_of_mem d v.incident_id v hm]
      exact hnd
    · intro e he
      rw [dictSet_of_mem d v.incident_id v hm] at he
      rcases List.mem_map.mp he with ⟨e0, he0, rfl⟩
      by_cases h0 : e0.1 = v.incident_id
      · rw [if_pos h0]
      · rw [if_neg h0]
        exact hcons e0 he0
  · constructor
    · rw [map_fst_dictSet_of_not_mem d v.incident_id v hm]
      refine List.Nodup.append hnd (List.nodup_singleton v.incident_id) ?_
      intro a ha hb
      rw [List.mem_singleton] at hb
      exact hm (hb ▸ ha)
    · intro e he
      rw [dictSet_of_not_mem d v.incident_id v hm] at he
      rcases List.mem_append.mp he with h1 | h1
      · exact hcons e h1
      · rw [List.mem_singleton] at h1
        rw [h1]

/-- The shape of _create_or_update_incident: the registry is written once,
under the returned incident's id; the returned incident carries the pair's
track and rule ids and is not resolved; and either a non-resolved incident
for the pair existed (its id is reused, the update case) or none did and
the returned incident is a fresh tentative one. -/
theorem create_or_update_form (eng : RuleEngine) (track : Track) (rule : Rule)
    (ts : ℚ) :
    (eng.create_or_update_incident track rule ts).2.incidents
      = dictSet eng.incidents
          (eng.create_or_update_incident track rule ts).1.incident_id
          (eng.create_or_update_incident track rule ts).1 ∧
    (eng.create_or_update_incident track rule ts).1.track_id = track.track_id ∧
    (eng.create_or_update_incident track rule ts).1.rule_id = rule.rule_id ∧
    (eng.create_or_update_incident track rule ts).1.state ≠ "resolved" ∧
    ((∃ inc0, ((eng.incidents.map Prod.snd).filter
        (incident_openb track.track_id rule.rule_id)).head? = some inc0 ∧
      (eng.create_or_update_incident track rule ts).1.incident_id = inc0.incident_id ∧
      inc0 ∈ eng.incidents.map Prod.snd ∧
      incident_openb track.track_id rule.rule_id inc0 = true) ∨
     ((eng.incidents.map Prod.snd).filter
        (incident_openb track.track_id rule.rule_id) = [] ∧
      (eng.create_or_update_incident track rule ts).1.state = "tentative")) := by
  cases hE : ((eng.incidents.map Prod.snd).filter
      (incident_openb track.track_id rule.rule_id)).head? with
  | some inc0 =>
    have hmem : inc0 ∈ (eng.incidents.map Prod.snd).filter
        (incident_openb track.track_id rule.rule_id) := by
      cases hF : (eng.incidents.map Prod.snd).filter
          (incident_openb track.track_id rule.rule_id) with
      | nil => rw [hF] at hE; cases hE
      | cons a as =>
        rw [hF, List.head?_cons] at hE
        injection hE with h
        rw [← h]
        exact List.mem_cons_self a as
    have hopen : incident_openb track.track_id rule.rule_id inc0 = true :=
      List.of_mem_filter hmem
    have hval : inc0 ∈ eng.incidents.map Prod.snd := List.mem_of_mem_filter hmem
    have hfields : inc0.track_id = track.track_id ∧ inc0.rule_id = rule.rule_id ∧
        inc0.state ≠ "resolved" := by
      simpa [incident_openb] using hopen
    refine ⟨?_, ?_, ?_, ?_, Or.inl ⟨inc0, rfl, ?_, hval, hopen⟩⟩
    · simp only [RuleEngine.create_or_update_incident, hE]
      split <;> split <;> rfl
    · simp only [RuleEngine.create_or_update_incident, hE]
      split <;> split <;> exact hfields.1
    · simp only [RuleEngine.create_or_update_incident, hE]
      split <;> split <;> exact hfields.2.1
    · simp only [RuleEngine.create_or_update_incident, hE]
      split <;> split <;> first | exact hfields.2.2 | simp
    · simp only [RuleEngine.create_or_update_incident, hE]
      split <;> split <;> rfl
  | none =>
    have hnil : (eng.incidents.map Prod.snd).filter
        (incident_openb track.track_id rule.rule_id) = [] := by
      cases hF : (eng.incidents.map Prod.snd).filter
          (incident_openb track.track_id rule.rule_id) with
      | nil => rfl
      | cons a as => rw [hF, List.head?_cons] at hE; cases hE
    refine ⟨?_, ?_, ?_, ?_, Or.inr ⟨hnil, ?_⟩⟩ <;>
    · simp only [RuleEngine.create_or_update_incident, hE]
      try first
      | rfl
      | simp

/-- _create_or_update_incident preserves well-formedness and the
at-most-one-open invariant of the incident registry. -/
theorem create_or_update_preserves (eng : RuleEngine) (track : Track) (rule : Rule)
    (ts : ℚ) (hwf : registry_wf eng.incidents)
    (hinv : at_most_one_open eng.incidents) :
    registry_wf (eng.create_or_update_incident track rule ts).2.incidents ∧
    at_most_one_open (eng.create_or_update_incident track rule ts).2.incidents := by
  obtain ⟨hshape, htid, hrid, hstate, hbranch⟩ := create_or_update_form eng track rule ts
  constructor
  · rw [hshape]
    exact dictSet_registry_wf eng.incidents _ hwf
  · intro tid rid
    unfold open_count
    rw [hshape]
    by_cases hp : incident_openb tid rid (eng.create_or_update_incident track rule ts).1 = true
    · have hwtid : (eng.create_or_update_incident track rule ts).1.track_id = tid ∧
          (eng.create_or_update_incident track rule ts).1.rule_id = rid := by
        unfold incident_openb at hp
        simp only [decide_eq_true_eq] at hp
        exact ⟨hp.1, hp.2.1⟩
      have htid2 : tid = track.track_id := by rw [← hwtid.1, htid]
      have hrid2 : rid = rule.rule_id := by rw [← hwtid.2, hrid]
      rcases hbranch with ⟨inc0, hE, hid, hval0, hopen0⟩ | ⟨hnil, _⟩
      · -- update case: the open incident is replaced in place
        rcases List.mem_map.mp hval0 with ⟨e0, he0, he0v⟩
        have he0k : e0.1 = inc0.incident_id := by rw [hwf.2 e0 he0, he0v]
        have hkm : (eng.create_or_update_incident track rule ts).1.incident_id
            ∈ eng.incidents.map Prod.fst := by
          rw [hid, ← he0k]
          exact List.mem_map_of_mem Prod.fst he0
        rw [dictSet_of_mem _ _ _ hkm]
        rw [countP_map_replace_congr]
        · exact hinv tid rid
        · intro e he hek
          have he2 : e = e0 := eq_of_mem_of_nodup_keys eng.incidents hwf.1 e e0 he he0
            (by rw [hek, hid, he0k])
          rw [he2, he0v, hp]
          rw [htid2, hrid2]
          exact hopen0
      · -- create case: no open incident for the pair existed
        have h0 : (eng.incidents.map Prod.snd).countP (incident_openb tid rid) = 0 := by
          rw [List.countP_eq_zero]
          intro a ha
          have := List.filter_eq_nil_iff.mp hnil a ha
          rw [htid2, hrid2]
          exact this
        by_cases hkm : (eng.create_or_update_incident track rule ts).1.incident_id
            ∈ eng.incidents.map Prod.fst
        · rw [dictSet_of_mem _ _ _ hkm]
          exact countP_map_replace_of_zero _ _ _ _ h0 hwf.1
        · rw [dictSet_of_not_mem _ _ _ hkm, List.map_append, List.countP_append, h0]
          simp only [List.map_cons, List.map_nil, List.countP_cons, List.countP_nil, hp]
          simp
    · have hpf : incident_openb tid rid (eng.create_or_update_incident track rule ts).1
          = false := by
        cases hx : incident_openb tid rid (eng.create_or_update_incident track rule ts).1
        · rfl
        · exact absurd hx hp
      by_cases hkm : (eng.create_or_update_incident track rule ts).1.incident_id
          ∈ eng.incidents.map Prod.fst
      · rw [dictSet_of_mem _ _ _ hkm]
        exact Nat.le_trans (countP_map_replace_le _ _ _ _ hpf) (hinv tid rid)
      · rw [dictSet_of_not_mem _ _ _ hkm, List.map_append, List.countP_append]
        have hw0 : (List.map Prod.snd
            [((eng.create_or_update_incident track rule ts).1.incident_id,
              (eng.create_or_update_incident track rule ts).1)]).countP
            (incident_openb tid rid) = 0 := by
          simp only [List.map_cons, List.map_nil, List.countP_cons, List.countP_nil, hpf,
            Bool.false_eq_true, if_false]
        rw [hw0, Nat.add_zero]
        exact hinv tid rid

/-- _check_dwell_time preserves well-formedness and the at-most-one-open
invariant. -/
theorem check_dwell_preserves_registry (eng : RuleEngine) (track : Track)
    (rule : Rule) (fid : Int) (ts : ℚ) (hwf : registry_wf eng.incidents)
    (hinv : at_most_one_open eng.incidents) :
    registry_wf (eng.check_dwell_time track rule fid ts).2.incidents ∧
    at_most_one_open (eng.check_dwell_time track rule fid ts).2.incidents := by
  cases hg : dictGet eng.track_rule_timers (track.track_id, rule.rule_id) with
  | none =>
    refine ⟨?_, ?_⟩ <;> simp only [RuleEngine.check_dwell_time, hg]
    · exact hwf
    · exact hinv
  | some first_ts =>
    refine ⟨?_, ?_⟩ <;> simp only [RuleEngine.check_dwell_time, hg] <;> split
    · exact (create_or_update_preserves
        { eng with track_rule_frames := dictSet eng.track_rule_frames (track.track_id, rule.rule_id) ((dictGet eng.track_rule_frames (track.track_id, rule.rule_id)).getD [] ++ [fid]) }
        track rule ts hwf hinv).1
    · exact hwf
    · exact (create_or_update_preserves
        { eng with track_rule_frames := dictSet eng.track_rule_frames (track.track_id, rule.rule_id) ((dictGet eng.track_rule_frames (track.track_id, rule.rule_id)).getD [] ++ [fid]) }
        track rule ts hwf hinv).2
    · exact hinv

/-- One evaluate step preserves well-formedness and the at-most-one-open
invariant. -/
theorem evaluate_step_preserves_registry (rule : Rule) (fid : Int) (ts : ℚ)
    (acc : List Incident × RuleEngine) (track : Track)
    (hwf : registry_wf acc.2.incidents) (hinv : at_most_one_open acc.2.incidents) :
    registry_wf (RuleEngine.evaluate_step rule fid ts acc track).2.incidents ∧
    at_most_one_open (RuleEngine.evaluate_step rule fid ts acc track).2.incidents := by
  unfold RuleEngine.evaluate_step
  by_cases hmt : RuleEngine.track_matches_rule track rule fid ts = true
  · rw [if_pos hmt]
    rcases check_dwell_preserves_registry acc.2 track rule fid ts hwf hinv with ⟨ha, hb⟩
    cases hr : (acc.2.check_dwell_time track rule fid ts).1 <;> simp only [hr] <;>
      exact ⟨ha, hb⟩
  · rw [if_neg hmt]
    exact ⟨hwf, hinv⟩

/-- The inner track fold of evaluate preserves the registry invariants. -/
theorem evaluate_inner_preserves_registry (rule : Rule) (fid : Int) (ts : ℚ)
    (tracks : List Track) (acc : List Incident × RuleEngine)
    (hwf : registry_wf acc.2.incidents) (hinv : at_most_one_open acc.2.incidents) :
    registry_wf (tracks.foldl (RuleEngine.evaluate_step rule fid ts) acc).2.incidents ∧
    at_most_one_open (tracks.foldl (RuleEngine.evaluate_step rule fid ts) acc).2.incidents := by
  induction tracks generalizing acc with
  | nil => exact ⟨hwf, hinv⟩
  | cons t rest ih =>
    rw [List.foldl_cons]
    rcases evaluate_step_preserves_registry rule fid ts acc t hwf hinv with ⟨ha, hb⟩
    exact ih _ ha hb

/-- The outer rule fold of evaluate preserves the registry invariants. -/
theorem evaluate_outer_preserves_registry (rules : List Rule) (fid : Int) (ts : ℚ)
    (tracks : List Track) (acc : List Incident × RuleEngine)
    (hwf : registry_wf acc.2.incidents) (hinv : at_most_one_open acc.2.incidents) :
    registry_wf (rules.foldl
        (fun a r => tracks.foldl (RuleEngine.evaluate_step r fid ts) a) acc).2.incidents ∧
    at_most_one_open (rules.foldl
        (fun a r => tracks.foldl (RuleEngine.evaluate_step r fid ts) a) acc).2.incidents := by
  induction rules generalizing acc with
  | nil => exact ⟨hwf, hinv⟩
  | cons r rest ih =>
    rw [List.foldl_cons]
    rcases evaluate_inner_preserves_registry r fid ts tracks acc hwf hinv with ⟨ha, hb⟩
    exact ih _ ha hb

/-- Claim C1: an evaluate call preserves the invariant that at most one
non-resolved incident exists per (track id, rule id) pair (together with
registry well-formedness, which the engine maintains by construction); and
_create_or_update_incident creates a new incident only when no non-resolved
incident for the pair is present — when one is present it rewrites the
registry in place (the key set is unchanged), otherwise it registers a
fresh tentative incident under the new id. -/
theorem c1_at_most_one_open_incident (eng : RuleEngine) (tracks : List Track)
    (frame_id : Int) (timestamp : ℚ)
    (hwf : registry_wf eng.incidents) (hinv : at_most_one_open eng.incidents) :
    (registry_wf (eng.evaluate tracks frame_id timestamp).2.incidents ∧
     at_most_one_open (eng.evaluate tracks frame_id timestamp).2.incidents) ∧
    (∀ (track : Track) (rule : Rule) (ts2 : ℚ),
      ((eng.incidents.map Prod.snd).filter
          (incident_openb track.track_id rule.rule_id) ≠ [] →
        ((eng.create_or_update_incident track rule ts2).2.incidents.map Prod.fst)
          = eng.incidents.map Prod.fst) ∧
      ((eng.incidents.map Prod.snd).filter
          (incident_openb track.track_id rule.rule_id) = [] →
        (eng.create_or_update_incident track rule ts2).2.incidents
          = dictSet eng.incidents
              (eng.create_or_update_incident track rule ts2).1.incident_id
              (eng.create_or_update_incident track rule ts2).1 ∧
        (eng.create_or_update_incident track rule ts2).1.state = "tentative")) := by
  constructor
  · exact evaluate_outer_preserves_registry eng.rules frame_id timestamp
      (eng.infer_helmet_status tracks).1 ([], (eng.infer_helmet_status tracks).2)
      hwf hinv
  · intro track rule ts2
    obtain ⟨hshape, htid, hrid, hstate, hbranch⟩ := create_or_update_form eng track rule ts2
    constructor
    · intro hne
      rcases hbranch with ⟨inc0, hE, hid, hval0, hopen0⟩ | ⟨hnil, _⟩
      · rcases List.mem_map.mp hval0 with ⟨e0, he0, he0v⟩
        have he0k : e0.1 = inc0.incident_id := by rw [hwf.2 e0 he0, he0v]
        have hkm : (eng.create_or_update_incident track rule ts2).1.incident_id
            ∈ eng.incidents.map Prod.fst := by
          rw [hid, ← he0k]
          exact List.mem_map_of_mem Prod.fst he0
        rw [hshape, map_fst_dictSet_of_mem _ _ _ hkm]
      · exact absurd hnil hne
    · intro hnil
      rcases hbranch with ⟨inc0, hE, hid, hval0, hopen0⟩ | ⟨_, htent⟩
      · rw [hnil] at hE
        cases hE
      · exact ⟨hshape, htent⟩

def c1_rule : Rule :=
  { rule_id := "r1", area_id := "a1", description := "single open incident",
    prompt_positive := "person", prompt_negative := none,
    box_threshold := 35 / 100, text_threshold := 25 / 100,
    conditions := { dwell_seconds := 0, min_confidence := 0, min_frames := 1 },
    roi := none,
    actions := { cooldown_seconds := 60, record_pre_seconds := 5,
                 record_post_seconds := 5, notify_channels := [] } }

def c1_track : Track :=
  { track_id := 1, bbox := (0, 0, 2, 2), confidence := 9 / 10,
    class_name := "car", first_seen_frame := 0, last_seen_frame := 0,
    first_seen_time := 0, last_seen_time := 0, state := "confirmed",
    detection_history :=
      [{ bbox := (0, 0, 2, 2), confidence := 9 / 10, class_name := "car",
         prompt_used := "car", frame_id := 0 }] }

def c1_eng : RuleEngine := { rules := [c1_rule] }

/-- Witness for C1 at a concrete engine with an empty registry. -/
theorem c1_at_most_one_open_incident_witness :
    registry_wf (c1_eng.evaluate [c1_track] 0 0).2.incidents ∧
    at_most_one_open (c1_eng.evaluate [c1_track] 0 0).2.incidents :=
  (c1_at_most_one_open_incident c1_eng [c1_track] 0 0
    ⟨List.nodup_nil, fun e he => absurd he (List.not_mem_nil e)⟩
    (fun _ _ => Nat.zero_le 1)).1
/-! ## Claim C2 -/

def c2_rule : Rule :=
  { rule_id := "r1", area_id := "a2", description := "id reuse",
    prompt_positive := "", prompt_negative := none,
    box_threshold := 35 / 100, text_threshold := 25 / 100,
    conditions := { dwell_seconds := 0, min_confidence := 0, min_frames := 1 },
    roi := none,
    actions := { cooldown_seconds := 60, record_pre_seconds := 5,
                 record_post_seconds := 5, notify_channels := [] } }

def c2_det : Detection :=
  { bbox := (0, 0, 1, 1), confidence := 1, class_name := "car",
    prompt_used := "p", frame_id := 7 }

def c2_track : Track :=
  { track_id := 1, bbox := (0, 0, 1, 1), confidence := 1, class_name := "car",
    first_seen_frame := 0, last_seen_frame := 0, first_seen_time := 0,
    last_seen_time := 0, state := "confirmed", detection_history := [c2_det] }

def c2_eng0 : RuleEngine := { rules := [c2_rule] }

/-- The engine after two matching frames at 10.2s and 10.4s: the incident
with id r1_1_10 has been created. -/
def c2_e2 : RuleEngine :=
  (((c2_eng0.evaluate [c2_track] 1 (51 / 5)).2).evaluate [c2_track] 2 (52 / 5)).2

/-- The engine after the operator resolves r1_1_10 at 10.5s. -/
def c2_e3 : RuleEngine := c2_e2.resolve_incident "r1_1_10" (21 / 2)

/-- The engine after one more matching frame at 10.6s, still within the
integer second 10. -/
def c2_e4 : RuleEngine := (c2_e3.evaluate [c2_track] 3 (53 / 5)).2

/-- Counterexample to C2 as stated: the id r1_1_10 maps to a resolved
incident before the third evaluate call and to a different, fresh
tentative incident afterwards — the creation at 10.6s reuses the id minted
at 10.4s (both truncate to second 10 for the same (rule, track) pair), so
the new incident overwrites the resolved one: the resolved incident is
removed from the registry and two created incidents shared one id. -/
theorem c2_counterexample :
    (dictGet c2_e3.incidents "r1_1_10").map (fun i => i.state) = some "resolved" ∧
    (dictGet c2_e4.incidents "r1_1_10").map (fun i => i.state) = some "tentative" ∧
    (dictGet c2_e4.incidents "r1_1_10").map (fun i => i.resolved_time) = some none ∧
    c2_e3.incidents.length = 1 ∧ c2_e4.incidents.length = 1 :=
  of_decide_eq_true (by with_unfolding_all rfl)

/-- _check_dwell_time never removes a key from the incident registry. -/
theorem check_dwell_keys_mono (eng : RuleEngine) (track : Track) (rule : Rule)
    (fid : Int) (ts : ℚ) (k : String) (hk : k ∈ eng.incidents.map Prod.fst) :
    k ∈ (eng.check_dwell_time track rule fid ts).2.incidents.map Prod.fst := by
  cases hg : dictGet eng.track_rule_timers (track.track_id, rule.rule_id) with
  | none =>
    simp only [RuleEngine.check_dwell_time, hg]
    exact hk
  | some first_ts =>
    simp only [RuleEngine.check_dwell_time, hg]
    split
    · obtain ⟨hshape, _, _, _, _⟩ := create_or_update_form
        { eng with track_rule_frames := dictSet eng.track_rule_frames (track.track_id, rule.rule_id) ((dictGet eng.track_rule_frames (track.track_id, rule.rule_id)).getD [] ++ [fid]) }
        track rule ts
      rw [hshape]
      exact mem_map_fst_dictSet _ _ _ _ hk
    · exact hk

/-- One evaluate step never removes a key from the incident registry. -/
theorem evaluate_step_keys_mono (rule : Rule) (fid : Int) (ts : ℚ)
    (acc : List Incident × RuleEngine) (track : Track) (k : String)
    (hk : k ∈ acc.2.incidents.map Prod.fst) :
    k ∈ (RuleEngine.evaluate_step rule fid ts acc track).2.incidents.map Prod.fst := by
  unfold RuleEngine.evaluate_step
  by_cases hmt : RuleEngine.track_matches_rule track rule fid ts = true
  · rw [if_pos hmt]
    have h := check_dwell_keys_mono acc.2 track rule fid ts k hk
    cases hr : (acc.2.check_dwell_time track rule fid ts).1 <;> simp only [hr] <;> exact h
  · rw [if_neg hmt]
    exact hk

/-- The evaluate folds never remove a key from the incident registry. -/
theorem evaluate_inner_keys_mono (rule : Rule) (fid : Int) (ts : ℚ)
    (tracks : List Track) (acc : List Incident × RuleEngine) (k : String)
    (hk : k ∈ acc.2.incidents.map Prod.fst) :
    k ∈ (tracks.foldl (RuleEngine.evaluate_step rule fid ts) acc).2.incidents.map Prod.fst := by
  induction tracks generalizing acc with
  | nil => exact hk
  | cons t rest ih =>
    rw [List.foldl_cons]
    exact ih _ (evaluate_step_keys_mono rule fid ts acc t k hk)

theorem evaluate_outer_keys_mono (rules : List Rule) (fid : Int) (ts : ℚ)
    (tracks : List Track) (acc : List Incident × RuleEngine) (k : String)
    (hk : k ∈ acc.2.incidents.map Prod.fst) :
    k ∈ (rules.foldl
        (fun a r => tracks.foldl (RuleEngine.evaluate_step r fid ts) a)
        acc).2.incidents.map Prod.fst := by
  induction rules generalizing acc with
  | nil => exact hk
  | cons r rest ih =>
    rw [List.foldl_cons]
    exact ih _ (evaluate_inner_keys_mono r fid ts tracks acc k hk)

/-- Claim C2 (amended): incident ids are derived deterministically from the
rule id, the track id and the integer part of the creation timestamp; no id
is ever removed from the registry by _create_or_update_incident, by
resolve_incident, or by a whole evaluate call; an id other than the one
being written keeps the exact incident it had; and resolution only rewrites
the incident's state and resolved time in place. What fails in the claim as
stated is uniqueness: when a second incident for the same (rule, track)
pair is created in the same integer second after the first was resolved,
the new id collides with the old one and the write overwrites the resolved
incident (see the counterexample). -/
theorem c2_registry_amended (eng : RuleEngine) :
    (∀ (track : Track) (rule : Rule) (ts : ℚ),
      ((eng.incidents.map Prod.snd).filter
          (incident_openb track.track_id rule.rule_id) = [] →
        (eng.create_or_update_incident track rule ts).1.incident_id
          = rule.rule_id ++ "_" ++ toString track.track_id ++ "_"
            ++ toString (pyInt ts)) ∧
      (∀ k, k ∈ eng.incidents.map Prod.fst →
        k ∈ (eng.create_or_update_incident track rule ts).2.incidents.map Prod.fst) ∧
      (∀ k, k ≠ (eng.create_or_update_incident track rule ts).1.incident_id →
        dictGet (eng.create_or_update_incident track rule ts).2.incidents k
          = dictGet eng.incidents k)) ∧
    (∀ (incident_id : String) (ts : ℚ),
      (∀ k, k ∈ eng.incidents.map Prod.fst →
        k ∈ (eng.resolve_incident incident_id ts).incidents.map Prod.fst) ∧
      (∀ k, k ≠ incident_id →
        dictGet (eng.resolve_incident incident_id ts).incidents k
          = dictGet eng.incidents k) ∧
      (∀ inc, dictGet eng.incidents incident_id = some inc →
        dictGet (eng.resolve_incident incident_id ts).incidents incident_id
          = some { inc with state := "resolved", resolved_time := some ts })) ∧
    (∀ (tracks : List Track) (fid : Int) (ts : ℚ) (k : String),
      k ∈ eng.incidents.map Prod.fst →
      k ∈ (eng.evaluate tracks fid ts).2.incidents.map Prod.fst) := by
  refine ⟨?_, ?_, ?_⟩
  · intro track rule ts
    obtain ⟨hshape, _, _, _, _⟩ := create_or_update_form eng track rule ts
    refine ⟨?_, ?_, ?_⟩
    · intro hnil
      have hE : ((eng.incidents.map Prod.snd).filter
          (incident_openb track.track_id rule.rule_id)).head? = none := by
        rw [hnil]; rfl
      simp only [RuleEngine.create_or_update_incident, hE]
    · intro k hk
      rw [hshape]
      exact mem_map_fst_dictSet _ _ _ _ hk
    · intro k hk
      rw [hshape]
      exact dictGet_dictSet_ne _ _ _ _ hk
  · intro incident_id ts
    refine ⟨?_, ?_, ?_⟩
    · intro k hk
      unfold RuleEngine.resolve_incident
      cases hg : dictGet eng.incidents incident_id with
      | none => exact hk
      | some inc =>
        simp only
        exact mem_map_fst_dictSet _ _ _ _ hk
    · intro k hk
      unfold RuleEngine.resolve_incident
      cases hg : dictGet eng.incidents incident_id with
      | none => rfl
      | some inc =>
        simp only
        exact dictGet_dictSet_ne _ _ _ _ hk
    · intro inc hg
      unfold RuleEngine.resolve_incident
      rw [hg]
      simp only
      exact dictGet_dictSet_self _ _ _
  · intro tracks fid ts k hk
    exact evaluate_outer_keys_mono eng.rules fid ts
      (eng.infer_helmet_status tracks).1 ([], (eng.infer_helmet_status tracks).2) k hk

/-- Witness for the amended C2: on the concrete engine holding the resolved
incident r1_1_10, a new creation for the pair mints the deterministic id,
and a whole evaluate call keeps the key r1_1_10 in the registry. -/
theorem c2_registry_amended_witness :
    (c2_e3.create_or_update_incident c2_track c2_rule (53 / 5)).1.incident_id
      = c2_rule.rule_id ++ "_" ++ toString c2_track.track_id ++ "_"
        ++ toString (pyInt (53 / 5)) ∧
    "r1_1_10" ∈ (c2_e3.evaluate [c2_track] 3 (53 / 5)).2.incidents.map Prod.fst :=
  ⟨((c2_registry_amended c2_e3).1 c2_track c2_rule (53 / 5)).1
      (by with_unfolding_all decide),
   (c2_registry_amended c2_e3).2.2 [c2_track] 3 (53 / 5) "r1_1_10"
      (by with_unfolding_all decide)⟩
